import Mathlib

/-!
Verification development for the sequential-questioning service.

The definitions below are a shallow embedding of the Python source:
  * `app/services/question_generation.py` (QuestionGenerationService),
  * `app/repositories/{message,conversation,user_session,base}.py`,
  * `app/mcp/sequential_questioning.py` (the three MCP endpoints).

The database is modelled as explicit state (lists of records in insertion
order); the language model and the vector-similarity store are modelled as
oracles supplied to each call; Python exceptions are modelled with `Except`.
-/

namespace SeqQ

/-! ### Small string utilities mirroring Python built-ins

These are written as structural recursions over the character list so that
concrete instances evaluate inside the kernel. -/

/-- Whether the first list is a prefix of the second. -/
def prefixOfChars : List Char → List Char → Bool
  | [], _ => true
  | _ :: _, [] => false
  | a :: as, b :: bs => a == b && prefixOfChars as bs

def containsSubstrAux (pat : List Char) : List Char → Bool
  | [] => prefixOfChars pat []
  | c :: cs => prefixOfChars pat (c :: cs) || containsSubstrAux pat cs

/-- Python `pat in s` substring test. -/
def containsSubstr (s pat : String) : Bool :=
  containsSubstrAux pat.data s.data

def splitWordsAux : List Char → List Char → List String
  | [], acc => if acc.isEmpty then [] else [String.mk acc.reverse]
  | c :: cs, acc =>
      if c.isWhitespace then
        if acc.isEmpty then splitWordsAux cs []
        else String.mk acc.reverse :: splitWordsAux cs []
      else splitWordsAux cs (c :: acc)

/-- Python `str.split()` with no arguments: split on whitespace runs,
dropping empty pieces. -/
def splitWords (s : String) : List String :=
  splitWordsAux s.data []

/-- Python `str.lower()` (ASCII-adequate). -/
def lowerString (s : String) : String :=
  String.mk (s.data.map Char.toLower)

/-- Python `s[:n]` character slicing. -/
def takeChars (s : String) (n : Nat) : String :=
  String.mk (s.data.take n)

/-- Python `str.capitalize()`: first character upper-cased, rest lower-cased. -/
def pyCapitalize (s : String) : String :=
  match s.data with
  | [] => ""
  | c :: rest => String.mk (c.toUpper :: rest.map Char.toLower)

/-- Truthiness of an optional string, Python style: `None` and `""` are falsy. -/
def truthy : Option String → Bool
  | none => false
  | some s => s ≠ ""

/-- Python `a or b` for an optional string with a string default. -/
def orElseStr (a : Option String) (b : String) : String :=
  match a with
  | some s => if s = "" then b else s
  | none => b

/-! ### JSON-ish values for the language model's parsed output

`json.loads` output is modelled only in the shapes the service's code paths
distinguish; payloads whose processing raises (non-dict items, scalars, …)
are funnelled to the same fallback as an unparsable payload, which is how the
source behaves (any exception in the big `try` block triggers the fallback).
-/

inductive JVal where
  | str (s : String)
  | int (n : Int)
  | bool (b : Bool)
deriving DecidableEq, Repr

/-- A JSON object in key insertion order (Python dicts preserve it). -/
abbrev JObj := List (String × JVal)

/-- Python `q[k]` / `k in q`: first binding of the key. -/
def jget (q : JObj) (k : String) : Option JVal :=
  (q.find? (fun p => p.1 = k)).map (fun p => p.2)

/-- Python `q[k] = v`: replace in place if the key exists, else append. -/
def jset (q : JObj) (k : String) (v : JVal) : JObj :=
  if (q.find? (fun p => p.1 = k)).isSome then
    q.map (fun p => if p.1 = k then (k, v) else p)
  else
    q ++ [(k, v)]

/-! ### Data model (`app/models/*.py`)

Record ids are modelled by a monotone counter instead of UUID strings;
`created_at` ordering is the list insertion order.  Only the columns the
orchestration logic reads are carried.
-/

structure UserSession where
  id : Nat
  user_identifier : Option String
  context : Option String
  is_active : Bool
deriving DecidableEq, Repr

structure Conversation where
  id : Nat
  user_session_id : Nat
  topic : String
  is_active : Bool
deriving DecidableEq, Repr

structure Message where
  id : Nat
  conversation_id : Nat
  message_type : String
  content : String
  sequence_number : Nat
deriving DecidableEq, Repr

/-- The persistence store: tables in row insertion order plus an id counter. -/
structure DBState where
  sessions : List UserSession
  conversations : List Conversation
  messages : List Message
  nextId : Nat
deriving DecidableEq, Repr

def DBState.empty : DBState := ⟨[], [], [], 0⟩

/-! ### Repository operations (`app/repositories/*.py`) -/

/-- `UserSessionRepository.get_by_user_identifier`: `SELECT … WHERE
user_identifier = :uid` with **no** `ORDER BY`, then `.first()`; modelled as
the first matching row in table order. -/
def get_by_user_identifier (st : DBState) (uid : String) : Option UserSession :=
  (st.sessions.filter (fun s => s.user_identifier == some uid)).head?

/-- `BaseRepository.get` for conversations: lookup by primary key. -/
def conversation_get (st : DBState) (cid : Nat) : Option Conversation :=
  st.conversations.find? (fun c => c.id == cid)

/-- `ConversationRepository.get_active_by_user_session_id`: active rows of the
session ordered by `created_at` descending, then `.first()` — the most
recently created active conversation. -/
def get_active_by_user_session_id (st : DBState) (sid : Nat) : Option Conversation :=
  ((st.conversations.filter (fun c => c.user_session_id == sid && c.is_active)).reverse).head?

/-- `MessageRepository.get_latest_message`: messages of the conversation
ordered by `sequence_number` descending, then `.first()`. -/
def get_latest_message (st : DBState) (cid : Nat) : Option Message :=
  (st.messages.filter (fun m => m.conversation_id == cid)).foldl
    (fun acc m =>
      match acc with
      | none => some m
      | some b => if b.sequence_number < m.sequence_number then some m else some b)
    none

/-- `MessageRepository.get_next_sequence_number`. -/
def get_next_sequence_number (st : DBState) (cid : Nat) : Nat :=
  match get_latest_message st cid with
  | some m => m.sequence_number + 1
  | none => 1

/-- `MessageRepository.count_by_conversation` with a `message_type` filter. -/
def count_by_conversation (st : DBState) (cid : Nat) (mtype : String) : Nat :=
  (st.messages.filter (fun m => m.conversation_id == cid && m.message_type == mtype)).length

/-- `UserSessionRepository.create`. -/
def createSession (st : DBState) (uid ctx : Option String) : UserSession × DBState :=
  let s : UserSession := ⟨st.nextId, uid, ctx, true⟩
  (s, { st with sessions := st.sessions ++ [s], nextId := st.nextId + 1 })

/-- `ConversationRepository.create`. -/
def createConversation (st : DBState) (sid : Nat) (topic : String) : Conversation × DBState :=
  let c : Conversation := ⟨st.nextId, sid, topic, true⟩
  (c, { st with conversations := st.conversations ++ [c], nextId := st.nextId + 1 })

/-- `MessageRepository.create` for a `"question"` message. -/
def createMessage (st : DBState) (cid : Nat) (mtype content : String) (seq : Nat) :
    Message × DBState :=
  let m : Message := ⟨st.nextId, cid, mtype, content, seq⟩
  (m, { st with messages := st.messages ++ [m], nextId := st.nextId + 1 })

/-! ### Python exceptions -/

inductive PyErr where
  /-- `IndexError` from `context.split()[0]` on a whitespace-only context. -/
  | indexError
  /-- `UnboundLocalError` for `similar_contexts` in `generate_question`'s
  response-metadata construction. -/
  | unboundSimilarContexts
  /-- `TypeError` from arithmetic on a non-numeric `question_number`. -/
  | typeError
  /-- Pydantic validation error when building `MessageCreate`/`QuestionItem`. -/
  | validationError
deriving DecidableEq, Repr

/-- Python-side message of each modelled exception (used in HTTP details). -/
def PyErr.msg : PyErr → String
  | .indexError => "list index out of range"
  | .unboundSimilarContexts =>
      "cannot access local variable similar_contexts where it is not associated with a value"
  | .typeError => "unsupported operand type(s)"
  | .validationError => "validation error"

/-! ### Language-model oracle

One `generate_question` call performs two model invocations: the question
batch and the continuation assessment.  Each invocation either raises, or
returns text whose JSON extraction fails, or returns a parsed payload.
-/

/-- Parsed shape of the first call's payload, as the code distinguishes it:
a JSON array, a dict with a `"questions"` key holding an array, or a single
dict (wrapped into a one-element list).  Any other shape raises while being
processed and reaches the same fallback as an unparsable payload. -/
inductive JTop where
  | arr (items : List JObj)
  | objQuestions (items : List JObj)
  | obj (o : JObj)
deriving DecidableEq, Repr

inductive LLM1 where
  | raise
  | unparsable
  | parsed (t : JTop)
deriving DecidableEq, Repr

/-- The item list the code extracts from a parsed payload: a list as is, the
`"questions"` entry of a dict, or the single dict wrapped in a list. -/
def JTop.items : JTop → List JObj
  | .arr l => l
  | .objQuestions l => l
  | .obj o => [o]

/-- Parsed shape of the continuation-assessment payload (each key optional). -/
structure MetaJson where
  next_batch_needed : Option Bool
  total_questions_estimated : Option Int
deriving DecidableEq, Repr

inductive LLM2 where
  | raise
  | unparsable
  | parsed (m : MetaJson)
deriving DecidableEq, Repr

structure LLMOut where
  first : LLM1
  second : LLM2
deriving DecidableEq, Repr

/-! ### Batch question generation
(`QuestionGenerationService._generate_question_batch`) -/

/-- `BatchMetadata` dict of `_generate_question_batch` (the
`generated_at` timestamp is not modelled).  `fallback_generation = false`
models the key being absent. -/
structure BatchMeta where
  batch_size : Nat
  starting_question_number : Nat
  ending_question_number : Nat
  next_batch_needed : Bool
  total_questions_estimated : Option Int
  fallback_generation : Bool
deriving DecidableEq, Repr

/-- `enumerate`-style map carrying the absolute index, as in
`for i, q in enumerate(questions_batch)`. -/
def enumMap (f : Nat → α → β) : Nat → List α → List β
  | _, [] => []
  | i, a :: as => f i a :: enumMap f (i + 1) as

/-- Python `context.split()[0] if context else dflt`: the default on a falsy
context, the first word otherwise, an `IndexError` if the non-empty context
has no words. -/
def ctxFirstWord (context dflt : String) : Except PyErr String :=
  if context = "" then .ok dflt
  else
    match (splitWords context).head? with
    | some w => .ok w
    | none => .error .indexError

/-- Repair pass of the batch parser: fill a missing `question_text` from the
first key containing `"question"` (else a placeholder), and a missing
`question_number` with `starting + index`. -/
def repairItem (starting i : Nat) (q : JObj) : JObj :=
  let q1 :=
    if (jget q "question_text").isSome then q
    else
      match q.find? (fun p => containsSubstr (lowerString p.1) "question") with
      | some p => jset q "question_text" p.2
      | none => jset q "question_text" (.str ("Question #" ++ toString (starting + i)))
  if (jget q1 "question_number").isSome then q1
  else jset q1 "question_number" (.int ((starting : Int) + (i : Int)))

/-- One synthesized filler question appended by the padding loop. -/
def fillerItem (w : String) (n : Int) : JObj :=
  [("question_text", .str ("Can you provide more details about your " ++ w ++ "?")),
   ("question_number", .int n),
   ("importance_explanation", .str "This will help gather more specific information."),
   ("information_to_look_for", .str "Additional context and clarification.")]

/-- The `while len(questions_batch) < batch_size` padding loop; each filler's
number is `starting + len(questions_batch)` at append time. -/
def padQuestions (context : String) (starting batchSize : Nat) (qb : List JObj) :
    Except PyErr (List JObj) :=
  if batchSize ≤ qb.length then .ok qb
  else
    match ctxFirstWord context "goals" with
    | .error e => .error e
    | .ok w =>
        .ok (qb ++ (List.range (batchSize - qb.length)).map
          (fun (j : Nat) => fillerItem w ((starting : Int) + (qb.length : Int) + (j : Int))))

/-- The heuristic continuation flag used on parse failure and in the fallback. -/
def heuristicNeeded (starting len : Nat) : Bool :=
  starting + len < 8

/-- The heuristic total-questions estimate. -/
def heuristicTotal (starting len : Nat) : Int :=
  max ((starting : Int) + (len : Int) + 2) 8

/-- Text of the `i`-th canned fallback question. -/
def fallbackQuestionText (context : String) (i : Nat) : Except PyErr String :=
  if i = 0 then
    (ctxFirstWord context "this topic").map
      (fun w => "What are your main goals related to " ++ w ++ "?")
  else if i = 1 then .ok "What challenges do you anticipate in achieving these goals?"
  else if i = 2 then .ok "What resources do you have available to help you with these goals?"
  else if i = 3 then .ok "How will you measure your progress toward these goals?"
  else
    (ctxFirstWord context "goals").map
      (fun w => "What else would you like to share about your " ++ w ++ "?")

/-- The `for i in range(batch_size)` loop of the fallback branch, building the
canned question texts (the first and last templates may raise on a
whitespace-only context). -/
def buildFallbackTexts (context : String) : Nat → Nat → Except PyErr (List String)
  | _, 0 => .ok []
  | i, n + 1 =>
    match fallbackQuestionText context i with
    | .error e => .error e
    | .ok t =>
      match buildFallbackTexts context (i + 1) n with
      | .error e => .error e
      | .ok ts => .ok (t :: ts)

/-- One canned fallback question item. -/
def fallbackItem (starting i : Nat) (t : String) : JObj :=
  [("question_text", JVal.str t),
   ("question_number", JVal.int ((starting : Int) + (i : Int))),
   ("importance_explanation",
      JVal.str "This is an essential question to understand your situation."),
   ("information_to_look_for", JVal.str "Specific details and context.")]

/-- The `except` branch of `_generate_question_batch`: deterministic fallback
questions plus heuristic metadata tagged `fallback_generation: true`. -/
def fallbackBatch (context : String) (batchSize starting : Nat) :
    Except PyErr (List JObj × BatchMeta) :=
  match buildFallbackTexts context 0 batchSize with
  | .error e => .error e
  | .ok texts =>
    let qs := enumMap (fun i t => fallbackItem starting i t) 0 texts
    .ok (qs,
      { batch_size := qs.length
        starting_question_number := starting
        ending_question_number := starting + qs.length - 1
        next_batch_needed := heuristicNeeded starting qs.length
        total_questions_estimated := some (heuristicTotal starting qs.length)
        fallback_generation := true })

/-- `QuestionGenerationService._generate_question_batch`.  Any exception in
the big `try` block — the first model call raising, its payload failing JSON
extraction, or an `IndexError` while padding — lands in the fallback; a parse
failure of the *second* call is recovered inside the inner `try` with the
heuristic metadata. -/
def generate_question_batch (context _previous_messages : String)
    (batchSize starting : Nat) (llm : LLMOut) :
    Except PyErr (List JObj × BatchMeta) :=
  match llm.first with
  | .raise => fallbackBatch context batchSize starting
  | .unparsable => fallbackBatch context batchSize starting
  | .parsed t =>
    let repaired := enumMap (fun i q => repairItem starting i q) 0 t.items
    let truncated := repaired.take batchSize
    match padQuestions context starting batchSize truncated with
    | .error _ => fallbackBatch context batchSize starting
    | .ok qb =>
      match llm.second with
      | .raise => fallbackBatch context batchSize starting
      | .unparsable =>
          .ok (qb,
            { batch_size := qb.length
              starting_question_number := starting
              ending_question_number := starting + qb.length - 1
              next_batch_needed := heuristicNeeded starting qb.length
              total_questions_estimated := some (heuristicTotal starting qb.length)
              fallback_generation := false })
      | .parsed m =>
          .ok (qb,
            { batch_size := qb.length
              starting_question_number := starting
              ending_question_number := starting + qb.length - 1
              next_batch_needed := m.next_batch_needed.getD true
              total_questions_estimated := m.total_questions_estimated
              fallback_generation := false })

/-! ### Request / response schemas (`app/schemas/question_generation.py`) -/

structure MessageItem where
  role : String
  content : String
deriving DecidableEq, Repr

/-- `QuestionRequest` (a `None` previous-messages list is identified with the
empty list, as the code only tests truthiness). -/
structure QuestionRequest where
  user_id : Option String := none
  conversation_id : Option Nat := none
  session_id : Option Nat := none
  context : Option String := none
  previous_messages : List MessageItem := []
deriving DecidableEq, Repr

structure QuestionItem where
  question_text : String
  question_number : Int
deriving DecidableEq, Repr

/-- `QuestionResponse`; of the free-form `metadata` dict the fields the
claims read are carried explicitly (`context_enhanced`, `question_type`,
`batch_metadata`). -/
structure QuestionResponse where
  current_question : String
  questions : List QuestionItem
  conversation_id : Nat
  session_id : Nat
  current_question_number : Nat
  total_questions_in_batch : Nat
  total_questions_estimated : Int
  next_batch_needed : Bool
  context_enhanced : Bool
  question_type : String
  batch_metadata : BatchMeta
deriving DecidableEq, Repr

/-! ### Session/conversation resolution
(`_get_or_create_session`, `_get_or_create_conversation`) -/

/-- `QuestionGenerationService._get_or_create_session`.  Note the lookup is
guarded by Python truthiness of `user_id` and the request's `session_id` is
not consulted at all. -/
def get_or_create_session (st : DBState) (user_id context : Option String) :
    Nat × DBState :=
  let found :=
    match user_id with
    | some uid => if uid = "" then none else get_by_user_identifier st uid
    | none => none
  match found with
  | some s => (s.id, st)
  | none =>
      let (s, st') := createSession st user_id context
      (s.id, st')

/-- `QuestionGenerationService._get_or_create_conversation`. -/
def get_or_create_conversation (st : DBState) (session_id : Nat)
    (conversation_id : Option Nat) (context : Option String) : Nat × DBState :=
  let byId :=
    match conversation_id with
    | some cid => conversation_get st cid
    | none => none
  let found :=
    match byId with
    | some c => some c
    | none => get_active_by_user_session_id st session_id
  match found with
  | some c => (c.id, st)
  | none =>
      let topic := if truthy context then takeChars (context.getD "") 50 else "New conversation"
      let (c, st') := createConversation st session_id topic
      (c.id, st')

/-! ### Previous-message helpers -/

/-- `_format_previous_messages`: joined `Role: content` lines plus the
has-previous-messages flag. -/
def format_previous_messages (msgs : List MessageItem) : String × Bool :=
  match msgs with
  | [] => ("", false)
  | _ =>
    (String.intercalate "\n" (msgs.map (fun m => pyCapitalize m.role ++ ": " ++ m.content)),
     true)

/-- `_get_last_user_message`: last message whose lower-cased role is
`"user"`. -/
def get_last_user_message (msgs : List MessageItem) : Option MessageItem :=
  msgs.reverse.find? (fun m => lowerString m.role == "user")

/-- Context enrichment from the vector search results (each hit's payload is
modelled by its optional `content` field). -/
def enhanceContext (context : String) (similar : List (Option String)) : String :=
  if similar.isEmpty then context
  else
    let enhanced := (similar.filterMap id).map (fun c => "- " ++ c)
    if enhanced.isEmpty then context
    else context ++ "\n\nAdditional relevant information:\n" ++ String.intercalate "\n" enhanced

/-! ### The full generation pipeline (`generate_question`) -/

/-- Oracle for the external collaborators consumed by one
`generate_question` call: the two model invocations and the vector-similarity
hits (the vector store itself never raises). -/
structure GenOracle where
  llm : LLMOut
  similar : List (Option String) := []
deriving DecidableEq, Repr

/-- Per-call oracle stream; endpoints making several `generate_question`
calls consume it in order. -/
abbrev GenEnv := List GenOracle

def defaultOracle : GenOracle := ⟨⟨.raise, .raise⟩, []⟩

def nextOracle : GenEnv → GenOracle × GenEnv
  | [] => (defaultOracle, [])
  | o :: os => (o, os)

/-- The per-question persistence loop of `generate_question`: for each batch
item, a `"question"` message is created with a fresh sequence number and a
`QuestionItem` is built.  A string `question_number` raises a `TypeError` in
the metadata arithmetic before anything is persisted for that item; a
non-string `question_text` fails `MessageCreate` validation; a boolean
`question_number` fails `QuestionItem` validation after the message was
already persisted. -/
def persistQuestions (cid : Nat) : DBState → List JObj →
    Except PyErr (List QuestionItem) × DBState
  | st, [] => (.ok [], st)
  | st, q :: qs =>
    match jget q "question_number" with
    | some (.str _) => (.error .typeError, st)
    | qnum =>
      let seq := get_next_sequence_number st cid
      match jget q "question_text" with
      | some (.str text) =>
        let (_, st1) := createMessage st cid "question" text seq
        match qnum with
        | some (.int n) =>
          match persistQuestions cid st1 qs with
          | (.error e, st2) => (.error e, st2)
          | (.ok items, st2) => (.ok (⟨text, n⟩ :: items), st2)
        | _ => (.error .validationError, st1)
      | _ => (.error .validationError, st)

/-- `QuestionGenerationService.generate_question`: resolve session and
conversation, optionally enrich the context, generate the batch, persist each
question, and assemble the response.  The state component is returned on
every path, errors included (partial persistence is preserved).  The
`similar_contexts` local of the Python code is only assigned on the branch
where a last user-authored message exists, which the response-metadata
construction does not re-check. -/
def generate_question (st : DBState) (env : GenEnv) (req : QuestionRequest) :
    Except PyErr QuestionResponse × DBState × GenEnv :=
  let (o, env') := nextOracle env
  let (session_id, st1) := get_or_create_session st req.user_id req.context
  let (conversation_id, st2) :=
    get_or_create_conversation st1 session_id req.conversation_id req.context
  let (previous_messages_formatted, has_previous_messages) :=
    format_previous_messages req.previous_messages
  let context0 := req.context.getD ""
  let lastUser := get_last_user_message req.previous_messages
  let context :=
    if has_previous_messages ∧ context0 ≠ "" then
      match lastUser with
      | some _ => enhanceContext context0 o.similar
      | none => context0
    else context0
  let question_count := count_by_conversation st2 conversation_id "question"
  let starting_question_number := question_count + 1
  let batch_size := if ¬ has_previous_messages then 5 else 3
  let batch :=
    if ¬ has_previous_messages then
      generate_question_batch context "" batch_size starting_question_number o.llm
    else
      generate_question_batch context previous_messages_formatted batch_size
        starting_question_number o.llm
  match batch with
  | .error e => (.error e, st2, env')
  | .ok (questions_batch, batch_metadata) =>
    match persistQuestions conversation_id st2 questions_batch with
    | (.error e, st3) => (.error e, st3, env')
    | (.ok question_items, st3) =>
      match question_items.head? with
      | none => (.error .indexError, st3, env')
      | some firstItem =>
        -- building the response metadata re-evaluates the enrichment guard:
        -- `bool(similar_contexts) if has_previous_messages and context else False`
        if has_previous_messages ∧ context0 ≠ "" then
          match lastUser with
          | none => (.error .unboundSimilarContexts, st3, env')
          | some _ =>
            (.ok
              { current_question := firstItem.question_text
                questions := question_items
                conversation_id := conversation_id
                session_id := session_id
                current_question_number := starting_question_number
                total_questions_in_batch := question_items.length
                total_questions_estimated := batch_metadata.total_questions_estimated.getD 8
                next_batch_needed := batch_metadata.next_batch_needed
                context_enhanced := !o.similar.isEmpty
                question_type := "follow_up"
                batch_metadata := batch_metadata }, st3, env')
        else
          (.ok
            { current_question := firstItem.question_text
              questions := question_items
              conversation_id := conversation_id
              session_id := session_id
              current_question_number := starting_question_number
              total_questions_in_batch := question_items.length
              total_questions_estimated := batch_metadata.total_questions_estimated.getD 8
              next_batch_needed := batch_metadata.next_batch_needed
              context_enhanced := false
              question_type := if ¬ has_previous_messages then "initial" else "follow_up"
              batch_metadata := batch_metadata }, st3, env')

/-! ### Endpoint layer (`app/mcp/sequential_questioning.py`) -/

/-- Stable ascending insertion of a question item by number. -/
def insertByNumber (a : QuestionItem) : List QuestionItem → List QuestionItem
  | [] => [a]
  | b :: bs =>
    if a.question_number ≤ b.question_number then a :: b :: bs
    else b :: insertByNumber a bs

/-- `sorted(questions, key=lambda x: x.question_number)` (a stable sort). -/
def sortByNumber (l : List QuestionItem) : List QuestionItem :=
  l.foldr insertByNumber []

/-- The numbered-list rendering `"{number}. {text}"` joined by newlines, after
sorting by question number. -/
def renderNumbered (l : List QuestionItem) : String :=
  String.intercalate "\n"
    ((sortByNumber l).map (fun q => toString q.question_number ++ ". " ++ q.question_text))

/-- Result of one endpoint invocation: a value, an `HTTPException`, or the
retry loop falling off its end without returning (Python's implicit `None`). -/
inductive EpResult (α : Type) where
  | ok (a : α)
  | http (code : Nat) (detail : String)
  | nothing
deriving DecidableEq, Repr

/-- The transient MCP protocol error message specially cased by the first
endpoint. -/
def initErrorMsg : String := "Received request before initialization was complete"

/-- Outcome of one attempt of an endpoint body, as seen by the retry loop. -/
inductive Attempt (α : Type) where
  | ok (a : α)
  | exn (msg : String)
  | httpExn (code : Nat) (detail : String)
deriving DecidableEq, Repr

/-- Aggregate outcome of a retry loop: final result, the sleeps performed (in
milliseconds, in order), and the number of attempts made. -/
structure RetryOutcome (α : Type) where
  result : EpResult α
  sleeps : List Nat
  attempts : Nat
deriving DecidableEq, Repr

/-- Retry loop of `generate_sequential_question` (`/question`): `fuel`
iterations remain of `while retry_count < max_retries`, `i` attempts were
already made.  An `HTTPException` has no dedicated handler here, so it is
treated like any exception by the body oracle.  The init-protocol error
sleeps 1 s and continues without the exhaustion check, so exhausting all
attempts through it falls off the loop with no response. -/
def retryLoop1 {α} (f : Nat → Attempt α) : Nat → Nat → RetryOutcome α
  | _, 0 => ⟨.nothing, [], 0⟩
  | i, fuel + 1 =>
    match f i with
    | .ok a => ⟨.ok a, [], 1⟩
    | .httpExn _ d =>
        -- endpoint 1's body never raises HTTPException; treated as generic
        let rc := i + 1
        if containsSubstr d initErrorMsg then
          let r := retryLoop1 f (i + 1) fuel
          ⟨r.result, 1000 :: r.sleeps, r.attempts + 1⟩
        else if 3 ≤ rc then
          ⟨.http 500 ("Failed to generate question after 3 attempts: " ++ d), [], 1⟩
        else
          let r := retryLoop1 f (i + 1) fuel
          ⟨r.result, 500 * 2 ^ (rc - 1) :: r.sleeps, r.attempts + 1⟩
    | .exn msg =>
        let rc := i + 1
        if containsSubstr msg initErrorMsg then
          let r := retryLoop1 f (i + 1) fuel
          ⟨r.result, 1000 :: r.sleeps, r.attempts + 1⟩
        else if 3 ≤ rc then
          ⟨.http 500 ("Failed to generate question after 3 attempts: " ++ msg), [], 1⟩
        else
          let r := retryLoop1 f (i + 1) fuel
          ⟨r.result, 500 * 2 ^ (rc - 1) :: r.sleeps, r.attempts + 1⟩

/-- Retry loop of `generate_follow_up_questions` (`/question/follow-up`):
`except HTTPException: raise` re-raises immediately; other exceptions get
exponential backoff (no init-error special case in this endpoint). -/
def retryLoopF {α} (f : Nat → Attempt α) : Nat → Nat → RetryOutcome α
  | _, 0 => ⟨.nothing, [], 0⟩
  | i, fuel + 1 =>
    match f i with
    | .ok a => ⟨.ok a, [], 1⟩
    | .httpExn c d => ⟨.http c d, [], 1⟩
    | .exn msg =>
        let rc := i + 1
        if 3 ≤ rc then
          ⟨.http 500 ("Failed to generate follow-up questions after 3 attempts: " ++ msg),
           [], 1⟩
        else
          let r := retryLoopF f (i + 1) fuel
          ⟨r.result, 500 * 2 ^ (rc - 1) :: r.sleeps, r.attempts + 1⟩

/-- Retry loop of `automatic_sequential_questioning` (`/question/automatic`):
only a generic exception handler, exponential backoff, no init-error special
case and no `HTTPException` re-raise clause. -/
def retryLoopA {α} (f : Nat → Attempt α) : Nat → Nat → RetryOutcome α
  | _, 0 => ⟨.nothing, [], 0⟩
  | i, fuel + 1 =>
    match f i with
    | .ok a => ⟨.ok a, [], 1⟩
    | .httpExn _ d =>
        let rc := i + 1
        if 3 ≤ rc then
          ⟨.http 500 ("Failed to generate automatic question flow after 3 attempts: " ++ d),
           [], 1⟩
        else
          let r := retryLoopA f (i + 1) fuel
          ⟨r.result, 500 * 2 ^ (rc - 1) :: r.sleeps, r.attempts + 1⟩
    | .exn msg =>
        let rc := i + 1
        if 3 ≤ rc then
          ⟨.http 500 ("Failed to generate automatic question flow after 3 attempts: " ++ msg),
           [], 1⟩
        else
          let r := retryLoopA f (i + 1) fuel
          ⟨r.result, 500 * 2 ^ (rc - 1) :: r.sleeps, r.attempts + 1⟩

/-! ### The follow-up endpoint with its real body -/

/-- An exception escaping an endpoint body: either an `HTTPException` or a
generic Python error from the pipeline. -/
inductive BodyErr where
  | http (code : Nat) (detail : String)
  | py (e : PyErr)
deriving DecidableEq, Repr

/-- One attempt of `generate_follow_up_questions`: validate that previous
messages are present (HTTP 400 otherwise), bootstrap a conversation via an
internal initial generation when no conversation id was supplied, then run
the follow-up generation and format the numbered list. -/
def followUpBody (st : DBState) (env : GenEnv) (req : QuestionRequest) :
    Except BodyErr QuestionResponse × DBState × GenEnv :=
  if req.previous_messages.isEmpty then
    (.error (.http 400 "previous_messages with user answers are required for follow-up questions"),
     st, env)
  else
    let afterBootstrap :
        Except PyErr QuestionRequest × DBState × GenEnv :=
      match req.conversation_id with
      | some _ => (.ok req, st, env)
      | none =>
        let initial_request : QuestionRequest :=
          { user_id := req.user_id
            conversation_id := none
            session_id := req.session_id
            context := some (orElseStr req.context "Follow-up conversation")
            previous_messages := [] }
        match generate_question st env initial_request with
        | (.error e, st1, env1) => (.error e, st1, env1)
        | (.ok r, st1, env1) =>
            (.ok { req with conversation_id := some r.conversation_id
                            session_id := some r.session_id }, st1, env1)
    match afterBootstrap with
    | (.error e, st1, env1) => (.error (.py e), st1, env1)
    | (.ok req', st1, env1) =>
      match generate_question st1 env1 req' with
      | (.error e, st2, env2) => (.error (.py e), st2, env2)
      | (.ok resp, st2, env2) =>
          (.ok { resp with current_question := renderNumbered resp.questions }, st2, env2)

/-- `generate_follow_up_questions` with its retry loop, threading the store
state and oracle stream through failed attempts. -/
def followUpEndpoint (req : QuestionRequest) :
    DBState → GenEnv → Nat → Nat → RetryOutcome QuestionResponse × DBState × GenEnv
  | st, env, _, 0 => (⟨.nothing, [], 0⟩, st, env)
  | st, env, i, fuel + 1 =>
    match followUpBody st env req with
    | (.ok a, st1, env1) => (⟨.ok a, [], 1⟩, st1, env1)
    | (.error (.http c d), st1, env1) => (⟨.http c d, [], 1⟩, st1, env1)
    | (.error (.py e), st1, env1) =>
      let rc := i + 1
      if 3 ≤ rc then
        (⟨.http 500 ("Failed to generate follow-up questions after 3 attempts: " ++ e.msg),
          [], 1⟩, st1, env1)
      else
        let (r, st2, env2) := followUpEndpoint req st1 env1 (i + 1) fuel
        (⟨r.result, 500 * 2 ^ (rc - 1) :: r.sleeps, r.attempts + 1⟩, st2, env2)

/-! ### The automatic multi-round endpoint -/

/-- `AutomaticQuestioningRequest` (`max_rounds` is validated to 1–3 by the
schema; the endpoint additionally caps it at 3). -/
structure AutomaticRequest where
  user_id : Option String := none
  conversation_id : Option Nat := none
  session_id : Option Nat := none
  context : Option String := none
  previous_messages : List MessageItem := []
  auto_handle_follow_up : Bool := true
  max_rounds : Nat := 2
deriving DecidableEq, Repr

/-- The base-class projection passed to `generate_question`. -/
def AutomaticRequest.toQuestionRequest (r : AutomaticRequest) : QuestionRequest :=
  { user_id := r.user_id
    conversation_id := r.conversation_id
    session_id := r.session_id
    context := r.context
    previous_messages := r.previous_messages }

/-- A value placed into the endpoint's metadata dict: the Python literal put
there is a `str`, an `int`, or a `bool`. -/
inductive MetaVal where
  | str (s : String)
  | int (n : Int)
  | bool (b : Bool)
deriving DecidableEq, Repr

/-- Pydantic v2 validation of a `Dict[str, str]` field: every value must
already be a string — an `int` or `bool` value is not coerced and fails
validation. -/
def validateStrDict : List (String × MetaVal) → Option (List (String × String))
  | [] => some []
  | (k, .str v) :: rest => (validateStrDict rest).map (fun r => (k, v) :: r)
  | _ => none

/-- The metadata dict `automatic_sequential_questioning` passes to
`AutomaticQuestioningResponse`: `rounds_generated` is an `int` and
`auto_follow_up` a `bool` although the field is typed `Dict[str, str]`
(`timestamp` is the wall clock's ISO string, environment-supplied and
irrelevant to validation, modelled as the empty string). -/
def autoMetadata (rounds_generated : Int) (timestamp : String)
    (auto_follow_up : Bool) (conversation_id : Nat) : List (String × MetaVal) :=
  [("rounds_generated", .int rounds_generated),
   ("timestamp", .str timestamp),
   ("auto_follow_up", .bool auto_follow_up),
   ("conversation_id", .str (toString conversation_id))]

/-- `AutomaticQuestioningResponse` (a `None` follow-up list is identified with
the empty list; `metadata : Optional[Dict[str, str]]` is carried as the
validated string-to-string dict). -/
structure AutomaticResponse where
  initial_questions : QuestionResponse
  follow_up_questions : List QuestionResponse
  all_questions_combined : String
  conversation_id : Nat
  session_id : Nat
  total_questions : Nat
  metadata : List (String × String)
deriving DecidableEq, Repr

/-- The endpoint's single `AutomaticQuestioningResponse(...)` construction
site: pydantic validates the metadata dict against `Dict[str, str]`, so the
constructor raises a `ValidationError` whenever a value is not a string. -/
def buildAutomaticResponse (init : QuestionResponse) (rounds : List QuestionResponse)
    (auto : Bool) : Except PyErr AutomaticResponse :=
  let all_questions := init.questions ++ (rounds.map (fun r => r.questions)).flatten
  match validateStrDict
      (autoMetadata (1 + rounds.length) "" auto init.conversation_id) with
  | none => .error .validationError
  | some md =>
      .ok
        { initial_questions := init
          follow_up_questions := rounds
          all_questions_combined := renderNumbered all_questions
          conversation_id := init.conversation_id
          session_id := init.session_id
          total_questions := all_questions.length
          metadata := md }

/-- The follow-up request the automatic endpoint constructs: the initial
response's conversation and session ids, the caller's context, previous
messages — and no user id, which is not forwarded. -/
def followUpRoundRequest (req : AutomaticRequest) (init : QuestionResponse) :
    QuestionRequest :=
  { user_id := none
    conversation_id := some init.conversation_id
    session_id := some init.session_id
    context := req.context
    previous_messages := req.previous_messages }

/-- The `while current_round < max_rounds and initial_questions.next_batch_needed`
loop; `fuel = max_rounds - current_round`, `initNeeded` is the (constant)
continuation flag of the *initial* round that the loop condition re-reads. -/
def autoFollowUpLoop (freq : QuestionRequest) (initNeeded : Bool) :
    DBState → GenEnv → Nat → Except PyErr (List QuestionResponse) × DBState × GenEnv
  | st, env, 0 => (.ok [], st, env)
  | st, env, fuel + 1 =>
    if initNeeded then
      match generate_question st env freq with
      | (.error e, st1, env1) => (.error e, st1, env1)
      | (.ok fu0, st1, env1) =>
        let fu := { fu0 with current_question := renderNumbered fu0.questions }
        if ¬ fu.next_batch_needed then (.ok [fu], st1, env1)
        else
          match autoFollowUpLoop freq initNeeded st1 env1 fuel with
          | (.error e, st2, env2) => (.error e, st2, env2)
          | (.ok rest, st2, env2) => (.ok (fu :: rest), st2, env2)
    else (.ok [], st, env)

/-- One attempt of `automatic_sequential_questioning`: initial generation,
then follow-up rounds while previous messages exist, the initial round
signalled continuation and auto-handling is enabled, capped at
`min(max_rounds, 3)` total rounds. -/
def automaticBody (st : DBState) (env : GenEnv) (req : AutomaticRequest) :
    Except PyErr AutomaticResponse × DBState × GenEnv :=
  match generate_question st env req.toQuestionRequest with
  | (.error e, st1, env1) => (.error e, st1, env1)
  | (.ok init0, st1, env1) =>
    let init := { init0 with current_question := renderNumbered init0.questions }
    if (!req.previous_messages.isEmpty) && init.next_batch_needed
        && req.auto_handle_follow_up then
      let max_rounds := min req.max_rounds 3
      let freq := followUpRoundRequest req init
      match autoFollowUpLoop freq init.next_batch_needed st1 env1 (max_rounds - 1) with
      | (.error e, st2, env2) => (.error e, st2, env2)
      | (.ok rounds, st2, env2) =>
        (buildAutomaticResponse init rounds req.auto_handle_follow_up, st2, env2)
    else
      (buildAutomaticResponse init [] req.auto_handle_follow_up, st1, env1)

/-- `automatic_sequential_questioning` with its retry loop (generic exception
handler only). -/
def automaticEndpoint (req : AutomaticRequest) :
    DBState → GenEnv → Nat → Nat → RetryOutcome AutomaticResponse × DBState × GenEnv
  | st, env, _, 0 => (⟨.nothing, [], 0⟩, st, env)
  | st, env, i, fuel + 1 =>
    match automaticBody st env req with
    | (.ok a, st1, env1) => (⟨.ok a, [], 1⟩, st1, env1)
    | (.error e, st1, env1) =>
      let rc := i + 1
      if 3 ≤ rc then
        (⟨.http 500 ("Failed to generate automatic question flow after 3 attempts: " ++ e.msg),
          [], 1⟩, st1, env1)
      else
        let (r, st2, env2) := automaticEndpoint req st1 env1 (i + 1) fuel
        (⟨r.result, 500 * 2 ^ (rc - 1) :: r.sleeps, r.attempts + 1⟩, st2, env2)

/-! ### Derived notions used by the claims -/

/-- The session/conversation resolver, exactly as `generate_question` composes
`_get_or_create_session` and `_get_or_create_conversation` (the request's
`session_id` is not an input of either). -/
def resolve (st : DBState) (user_id : Option String) (conversation_id : Option Nat)
    (context : Option String) : (Nat × Nat) × DBState :=
  let (sid, st1) := get_or_create_session st user_id context
  let (cid, st2) := get_or_create_conversation st1 sid conversation_id context
  ((sid, cid), st2)

/-- Modelled from the spec's words for comparison (`lookup is by most-recent
match`): the most recently created session with the given user identifier. -/
def mostRecentByUserIdentifier (st : DBState) (uid : String) : Option UserSession :=
  ((st.sessions.filter (fun s => s.user_identifier == some uid)).reverse).head?

/-- The sequence numbers of a conversation's messages, in creation order. -/
def conversationSeqs (st : DBState) (cid : Nat) : List Nat :=
  (st.messages.filter (fun m => m.conversation_id == cid)).map
    (fun m => m.sequence_number)

/-- Sequence numbers are gapless from 1, per conversation (checking the
conversations that own at least one message suffices: the others have no
sequence numbers at all). -/
def seqInv (st : DBState) : Prop :=
  ∀ cid ∈ st.messages.map (fun m => m.conversation_id),
    conversationSeqs st cid = List.range' 1 (conversationSeqs st cid).length

instance (st : DBState) : Decidable (seqInv st) := by
  unfold seqInv; infer_instance

/-- A batch item the persistence loop accepts: a string `question_text` and an
integer `question_number`. -/
def persistGood (q : JObj) : Prop :=
  (∃ s, jget q "question_text" = some (JVal.str s)) ∧
  (∃ n, jget q "question_number" = some (JVal.int n))

/-- A first-model-call outcome that does not blow up the pipeline: either the
call failed / was unparsable (handled by the fallback), or every parsed item
carries a string `question_text` and either no `question_number` or an integer
one. -/
def wellFormedItem (q : JObj) : Prop :=
  (∃ s, jget q "question_text" = some (JVal.str s)) ∧
  (jget q "question_number" = none ∨ ∃ n, jget q "question_number" = some (JVal.int n))

def wellFormedFirst : LLM1 → Prop
  | .raise => True
  | .unparsable => True
  | .parsed t => ∀ q ∈ t.items, wellFormedItem q

/-- No parsed item carries an explicit `question_number` (the situation in
which the repair pass controls the whole numbering). -/
def noExplicitNumbers : LLM1 → Prop
  | .parsed t => ∀ q ∈ t.items, jget q "question_number" = none
  | _ => True

instance (f : LLM1) : Decidable (noExplicitNumbers f) := by
  unfold noExplicitNumbers
  cases f with
  | raise => exact inferInstance
  | unparsable => exact inferInstance
  | parsed t => exact inferInstance

/-! ### Concrete instances for counterexamples and witnesses -/

/-- A parsed batch item with only a question text. -/
def plainItem (t : String) : JObj := [("question_text", JVal.str t)]

/-- A parsed batch item carrying an explicit (here: constant) number. -/
def numberedItem (t : String) (n : Int) : JObj :=
  [("question_text", JVal.str t), ("question_number", JVal.int n)]

/-- A benign continuation assessment. -/
def okMeta : LLM2 := .parsed ⟨some true, some 10⟩

/-- An oracle whose first call parses to three plain items. -/
def oracle3 : GenOracle := ⟨⟨.parsed (.arr [plainItem "A", plainItem "B", plainItem "C"]), okMeta⟩, []⟩

/-- An oracle whose model calls raise (forcing the fallback). -/
def oracleRaise : GenOracle := ⟨⟨.raise, .raise⟩, []⟩

/-- An oracle whose first call parses to five items all numbered 42. -/
def oracle42 : GenOracle :=
  ⟨⟨.parsed (.arr [numberedItem "A" 42, numberedItem "B" 42, numberedItem "C" 42,
        numberedItem "D" 42, numberedItem "E" 42]), okMeta⟩, []⟩

/-- An initial request with a context only. -/
def reqInitial : QuestionRequest := { context := some "Plan a trip" }

/-- State after one initial fallback generation from the empty store: one
session (id 0), one conversation (id 1), five question messages. -/
def stAfterInitial : DBState :=
  (generate_question DBState.empty [oracleRaise] reqInitial).2.1

/-- A request that supplies both identifiers of the records just created but
no user identifier. -/
def reqWithIds : QuestionRequest :=
  { context := some "Plan a trip", session_id := some 0, conversation_id := some 1 }

/-- Two stored sessions for the same external user identifier, the older one
first. -/
def stTwoSessions : DBState :=
  ⟨[⟨0, some "u", none, true⟩, ⟨1, some "u", none, true⟩], [], [], 2⟩

/-- The automatic-flow request of the multi-round scenario: non-empty
previous messages, auto-handling on, two rounds. -/
def reqAuto : AutomaticRequest :=
  { context := some "Plan a trip"
    previous_messages := [⟨"user", "I need help planning my trip"⟩]
    auto_handle_follow_up := true
    max_rounds := 2 }

/-- Project a successful response out of a result (placeholder on error). -/
def orDefaultResp (e : Except PyErr QuestionResponse) : QuestionResponse :=
  match e with
  | .ok r => r
  | .error _ => ⟨"", [], 0, 0, 0, 0, 0, true, false, "", ⟨0, 0, 0, true, none, false⟩⟩

/-- The initial fallback run used as a concrete witness. -/
def runInitialFallback := generate_question DBState.empty [oracleRaise] reqInitial

def respInitialFallback : QuestionResponse := orDefaultResp runInitialFallback.1

/-- The initial parsed run (three plain items, padded to five). -/
def runInitialParsed := generate_question DBState.empty [oracle3] reqInitial

def respInitialParsed : QuestionResponse := orDefaultResp runInitialParsed.1

/-- Stage extraction of the automatic-flow witness scenario. -/
def autoRun1 := generate_question DBState.empty [oracle3, oracle3] reqAuto.toQuestionRequest

def autoResp1 : QuestionResponse := orDefaultResp autoRun1.1

def autoFollowReq : QuestionRequest := followUpRoundRequest reqAuto autoResp1

def autoRun2 := generate_question autoRun1.2.1 autoRun1.2.2 autoFollowReq

def autoResp2 : QuestionResponse := orDefaultResp autoRun2.1

/-- A follow-up-shaped request whose previous messages have no user role. -/
def reqNoUserRole : QuestionRequest :=
  { context := some "Plan a trip"
    previous_messages := [⟨"assistant", "Here is a plan outline"⟩] }

/-- A follow-up request with no previous messages (the validation case). -/
def reqEmptyPrev : QuestionRequest :=
  { context := some "Plan a trip", previous_messages := [] }

/-! ### Lemmas about JSON-object access -/

theorem jget_cons (p : String × JVal) (ps : JObj) (k : String) :
    jget (p :: ps) k = if p.1 = k then some p.2 else jget ps k := by
  by_cases h : p.1 = k <;> simp [jget, List.find?_cons, h]

theorem jget_append (q₁ q₂ : JObj) (k : String) :
    jget (q₁ ++ q₂) k = ((jget q₁ k).map some).getD (jget q₂ k) := by
  induction q₁ with
  | nil => simp [jget]
  | cons p ps ih =>
    by_cases h : p.1 = k <;> simp [jget_cons, h, ih]

theorem jget_map_subst (q : JObj) (k k' : String) (v : JVal) (h : k ≠ k') :
    jget (q.map (fun p => if p.1 = k then (k, v) else p)) k' = jget q k' := by
  induction q with
  | nil => simp [jget]
  | cons p ps ih =>
    by_cases hp : p.1 = k
    · have hk : ¬ ((k : String) = k') := h
      have hp' : ¬ (p.1 = k') := by rw [hp]; exact h
      simp only [List.map_cons, if_pos hp]
      rw [jget_cons, jget_cons]
      simp only [hk, hp', if_false]
      exact ih
    · simp only [List.map_cons, if_neg hp]
      rw [jget_cons, jget_cons]
      by_cases hpx : p.1 = k'
      · simp [hpx]
      · simp only [if_neg hpx]
        exact ih

theorem jget_map_subst_self (q : JObj) (k : String) (v : JVal)
    (h : (q.find? (fun p => p.1 = k)).isSome) :
    jget (q.map (fun p => if p.1 = k then (k, v) else p)) k = some v := by
  induction q with
  | nil => simp at h
  | cons p ps ih =>
    by_cases hp : p.1 = k
    · simp only [List.map_cons, if_pos hp]
      simp [jget_cons]
    · simp only [List.find?_cons, decide_eq_true_eq, hp, decide_False] at h
      simp only [List.map_cons, if_neg hp]
      rw [jget_cons, if_neg hp]
      exact ih h

theorem jget_jset_self (q : JObj) (k : String) (v : JVal) :
    jget (jset q k v) k = some v := by
  unfold jset
  by_cases h : (q.find? (fun p => p.1 = k)).isSome
  · simp only [h, if_true]
    exact jget_map_subst_self q k v h
  · have hf : q.find? (fun p => p.1 = k) = none := by
      cases hx : q.find? (fun p => p.1 = k) <;> simp [hx] at h ⊢
    have hq : jget q k = none := by simp [jget, hf]
    simp only [hf, Option.isSome_none, Bool.false_eq_true, if_false]
    rw [jget_append, hq]
    simp [jget_cons]

theorem jget_jset_ne (q : JObj) (k k' : String) (v : JVal) (h : k ≠ k') :
    jget (jset q k v) k' = jget q k' := by
  unfold jset
  by_cases hs : (q.find? (fun p => p.1 = k)).isSome
  · simp only [hs, if_true]
    exact jget_map_subst q k k' v h
  · have hf : q.find? (fun p => p.1 = k) = none := by
      cases hx : q.find? (fun p => p.1 = k) <;> simp [hx] at hs ⊢
    have hone : jget [(k, v)] k' = none := by
      rw [jget_cons]
      simp [h, jget]
    simp only [hf, Option.isSome_none, Bool.false_eq_true, if_false]
    rw [jget_append, hone]
    cases hq : jget q k' <;> simp

/-! ### Lemmas about the fallback batch -/

theorem enumMap_length (f : Nat → α → β) (i : Nat) (l : List α) :
    (enumMap f i l).length = l.length := by
  induction l generalizing i with
  | nil => rfl
  | cons a as ih => simp [enumMap, ih]

theorem enumMap_mem {f : Nat → α → β} {i : Nat} {l : List α} {b : β}
    (hb : b ∈ enumMap f i l) : ∃ j a, a ∈ l ∧ b = f j a := by
  induction l generalizing i with
  | nil => simp [enumMap] at hb
  | cons a as ih =>
    simp only [enumMap, List.mem_cons] at hb
    rcases hb with hb | hb
    · exact ⟨i, a, List.mem_cons_self a as, hb⟩
    · obtain ⟨j, a', ha', rfl⟩ := ih hb
      exact ⟨j, a', List.mem_cons_of_mem a ha', rfl⟩

theorem ctxFirstWord_ok (c d : String) (h : c = "" ∨ splitWords c ≠ []) :
    ∃ w, ctxFirstWord c d = .ok w := by
  unfold ctxFirstWord
  rcases h with h | h
  · exact ⟨d, by simp [h]⟩
  · by_cases hc : c = ""
    · exact ⟨d, by simp [hc]⟩
    · cases hw : (splitWords c).head? with
      | none => exact absurd (List.head?_eq_none_iff.mp hw) h
      | some w => exact ⟨w, by simp [hc, hw]⟩

theorem fallbackQuestionText_ok (c : String) (i : Nat)
    (h : c = "" ∨ splitWords c ≠ []) :
    ∃ t, fallbackQuestionText c i = .ok t := by
  obtain ⟨w₀, hw₀⟩ := ctxFirstWord_ok c "this topic" h
  obtain ⟨w₄, hw₄⟩ := ctxFirstWord_ok c "goals" h
  unfold fallbackQuestionText
  by_cases h0 : i = 0
  · rw [if_pos h0, hw₀]
    exact ⟨_, rfl⟩
  · rw [if_neg h0]
    by_cases h1 : i = 1
    · rw [if_pos h1]; exact ⟨_, rfl⟩
    · rw [if_neg h1]
      by_cases h2 : i = 2
      · rw [if_pos h2]; exact ⟨_, rfl⟩
      · rw [if_neg h2]
        by_cases h3 : i = 3
        · rw [if_pos h3]; exact ⟨_, rfl⟩
        · rw [if_neg h3, hw₄]
          exact ⟨_, rfl⟩

theorem buildFallbackTexts_length (c : String) :
    ∀ (n i : Nat) (ts : List String),
      buildFallbackTexts c i n = .ok ts → ts.length = n := by
  intro n
  induction n with
  | zero => intro i ts h; simp [buildFallbackTexts] at h; simp [← h]
  | succ n ih =>
    intro i ts h
    unfold buildFallbackTexts at h
    cases ht : fallbackQuestionText c i with
    | error e => rw [ht] at h; exact absurd h (by simp)
    | ok t =>
      rw [ht] at h
      cases hts : buildFallbackTexts c (i + 1) n with
      | error e => rw [hts] at h; exact absurd h (by simp)
      | ok ts' =>
        rw [hts] at h
        have : t :: ts' = ts := by simpa using h
        rw [← this]
        simp [ih (i + 1) ts' hts]

theorem buildFallbackTexts_ok (c : String) (h : c = "" ∨ splitWords c ≠ []) :
    ∀ (n i : Nat), ∃ ts, buildFallbackTexts c i n = .ok ts := by
  intro n
  induction n with
  | zero => intro i; exact ⟨[], rfl⟩
  | succ n ih =>
    intro i
    obtain ⟨t, ht⟩ := fallbackQuestionText_ok c i h
    obtain ⟨ts, hts⟩ := ih (i + 1)
    exact ⟨t :: ts, by unfold buildFallbackTexts; rw [ht, hts]⟩

theorem jget_fallbackItem_text (s i : Nat) (t : String) :
    jget (fallbackItem s i t) "question_text" = some (JVal.str t) := by
  simp [fallbackItem, jget_cons]

theorem jget_fallbackItem_num (s i : Nat) (t : String) :
    jget (fallbackItem s i t) "question_number"
      = some (JVal.int ((s : Int) + (i : Int))) := by
  simp [fallbackItem, jget_cons]

theorem enumMap_fallback_nums (s : Nat) (ts : List String) :
    ∀ i, (enumMap (fun j t => fallbackItem s j t) i ts).map
        (fun q => jget q "question_number")
      = (List.range ts.length).map
          (fun (j : Nat) => some (JVal.int ((s : Int) + (i : Int) + (j : Int)))) := by
  induction ts with
  | nil => intro i; rfl
  | cons t ts ih =>
    intro i
    simp only [enumMap, List.map_cons, List.length_cons, List.range_succ_eq_map,
      jget_fallbackItem_num, List.map_map]
    refine List.cons_eq_cons.mpr ⟨?_, ?_⟩
    · simp only [Option.some.injEq, JVal.int.injEq]
      push_cast
      ring
    · rw [ih (i + 1)]
      apply List.map_congr_left
      intro j _
      simp only [Function.comp_apply, Option.some.injEq, JVal.int.injEq]
      push_cast
      ring

theorem fallbackBatch_spec (c : String) (bs s : Nat)
    (h : c = "" ∨ splitWords c ≠ []) :
    ∃ qs, fallbackBatch c bs s
        = .ok (qs,
            { batch_size := bs
              starting_question_number := s
              ending_question_number := s + bs - 1
              next_batch_needed := heuristicNeeded s bs
              total_questions_estimated := some (heuristicTotal s bs)
              fallback_generation := true })
      ∧ qs.length = bs
      ∧ qs.map (fun q => jget q "question_number")
          = (List.range bs).map (fun (j : Nat) => some (JVal.int ((s : Int) + (j : Int))))
      ∧ ∀ q ∈ qs, ∃ t, jget q "question_text" = some (JVal.str t) := by
  obtain ⟨ts, hts⟩ := buildFallbackTexts_ok c h bs 0
  have hlen : ts.length = bs := buildFallbackTexts_length c bs 0 ts hts
  refine ⟨enumMap (fun i t => fallbackItem s i t) 0 ts, ?_, ?_, ?_, ?_⟩
  · unfold fallbackBatch
    rw [hts]
    simp [enumMap_length, hlen]
  · simp [enumMap_length, hlen]
  · have := enumMap_fallback_nums s ts 0
    rw [this, hlen]
    apply List.map_congr_left
    intro j _
    norm_num
  · intro q hq
    obtain ⟨j, t, _, rfl⟩ := enumMap_mem hq
    exact ⟨t, jget_fallbackItem_text s j t⟩

theorem fallbackBatch_inv (c : String) (bs s : Nat) (qs : List JObj) (meta : BatchMeta)
    (h : fallbackBatch c bs s = .ok (qs, meta)) :
    qs.length = bs
    ∧ meta = { batch_size := bs
               starting_question_number := s
               ending_question_number := s + bs - 1
               next_batch_needed := heuristicNeeded s bs
               total_questions_estimated := some (heuristicTotal s bs)
               fallback_generation := true }
    ∧ qs.map (fun q => jget q "question_number")
        = (List.range bs).map (fun (j : Nat) => some (JVal.int ((s : Int) + (j : Int))))
    ∧ ∀ q ∈ qs, persistGood q := by
  unfold fallbackBatch at h
  cases hts : buildFallbackTexts c 0 bs with
  | error e => rw [hts] at h; exact absurd h (by simp)
  | ok ts =>
    rw [hts] at h
    have hlen : ts.length = bs := buildFallbackTexts_length c bs 0 ts hts
    have hq : qs = enumMap (fun i t => fallbackItem s i t) 0 ts := by
      have := h
      simp only [Except.ok.injEq, Prod.mk.injEq] at this
      exact this.1.symm
    have hqlen : qs.length = bs := by rw [hq, enumMap_length, hlen]
    refine ⟨hqlen, ?_, ?_, ?_⟩
    · have := h
      simp only [Except.ok.injEq, Prod.mk.injEq] at this
      rw [← this.2]
      have hql : (enumMap (fun i t => fallbackItem s i t) 0 ts).length = bs := by
        rw [enumMap_length, hlen]
      simp [hql]
    · rw [hq]
      have := enumMap_fallback_nums s ts 0
      rw [this, hlen]
      apply List.map_congr_left
      intro j _
      simp only [Option.some.injEq, JVal.int.injEq]
      push_cast
      ring
    · intro q hqm
      rw [hq] at hqm
      obtain ⟨j, t, _, rfl⟩ := enumMap_mem hqm
      exact ⟨⟨t, jget_fallbackItem_text s j t⟩, ⟨_, jget_fallbackItem_num s j t⟩⟩

/-! ### Lemmas about padding and repair -/

theorem jget_fillerItem_num (w : String) (n : Int) :
    jget (fillerItem w n) "question_number" = some (JVal.int n) := by
  simp [fillerItem, jget_cons]

theorem jget_fillerItem_text (w : String) (n : Int) :
    jget (fillerItem w n) "question_text"
      = some (JVal.str ("Can you provide more details about your " ++ w ++ "?")) := by
  simp [fillerItem, jget_cons]

theorem padQuestions_cases (c : String) (s bs : Nat) (qb out : List JObj)
    (h : padQuestions c s bs qb = .ok out) :
    (bs ≤ qb.length ∧ out = qb) ∨
    (qb.length < bs ∧ ∃ w, ctxFirstWord c "goals" = .ok w ∧
      out = qb ++ (List.range (bs - qb.length)).map
        (fun (j : Nat) => fillerItem w ((s : Int) + (qb.length : Int) + (j : Int)))) := by
  unfold padQuestions at h
  by_cases hb : bs ≤ qb.length
  · rw [if_pos hb] at h
    exact Or.inl ⟨hb, by simpa using h.symm⟩
  · rw [if_neg hb] at h
    refine Or.inr ⟨by omega, ?_⟩
    cases hw : ctxFirstWord c "goals" with
    | error e => rw [hw] at h; exact absurd h (by simp)
    | ok w =>
      rw [hw] at h
      exact ⟨w, rfl, by simpa using h.symm⟩

theorem padQuestions_ok_of (c : String) (s bs : Nat) (qb : List JObj)
    (h : c = "" ∨ splitWords c ≠ []) :
    ∃ out, padQuestions c s bs qb = .ok out := by
  unfold padQuestions
  by_cases hb : bs ≤ qb.length
  · rw [if_pos hb]; exact ⟨qb, rfl⟩
  · rw [if_neg hb]
    obtain ⟨w, hw⟩ := ctxFirstWord_ok c "goals" h
    rw [hw]
    exact ⟨_, rfl⟩

theorem padQuestions_length (c : String) (s bs : Nat) (qb out : List JObj)
    (hle : qb.length ≤ bs) (h : padQuestions c s bs qb = .ok out) :
    out.length = bs := by
  rcases padQuestions_cases c s bs qb out h with ⟨h1, rfl⟩ | ⟨h1, w, _, rfl⟩
  · omega
  · simp only [List.length_append, List.length_map, List.length_range]
    omega

theorem repairItem_num_of_none (s i : Nat) (q : JObj)
    (h : jget q "question_number" = none) :
    jget (repairItem s i q) "question_number"
      = some (JVal.int ((s : Int) + (i : Int))) := by
  have hne : ("question_text" : String) ≠ "question_number" := by decide
  unfold repairItem
  by_cases ht : (jget q "question_text").isSome
  · simp only [ht, if_true, h, Option.isSome_none, Bool.false_eq_true, if_false]
    exact jget_jset_self _ _ _
  · have ht' : (jget q "question_text").isSome = false := by simpa using ht
    simp only [ht', Bool.false_eq_true, if_false]
    cases hf : q.find? (fun p => containsSubstr (lowerString p.1) "question") with
    | some p =>
      simp only [hf]
      rw [jget_jset_ne _ _ _ _ hne, h]
      simp only [Option.isSome_none, Bool.false_eq_true, if_false]
      exact jget_jset_self _ _ _
    | none =>
      simp only [hf]
      rw [jget_jset_ne _ _ _ _ hne, h]
      simp only [Option.isSome_none, Bool.false_eq_true, if_false]
      exact jget_jset_self _ _ _

theorem repairItem_good (s i : Nat) (q : JObj) (hw : wellFormedItem q) :
    persistGood (repairItem s i q) := by
  obtain ⟨⟨t, htext⟩, hnum⟩ := hw
  have hts : (jget q "question_text").isSome := by simp [htext]
  have hne : ("question_number" : String) ≠ "question_text" := by decide
  unfold repairItem
  simp only [hts, if_true]
  rcases hnum with hnone | ⟨n, hn⟩
  · simp only [hnone, Option.isSome_none, Bool.false_eq_true, if_false]
    refine ⟨⟨t, ?_⟩, ⟨_, jget_jset_self _ _ _⟩⟩
    rw [jget_jset_ne _ _ _ _ hne]
    exact htext
  · simp only [hn, Option.isSome_some, if_true]
    exact ⟨⟨t, htext⟩, ⟨n, hn⟩⟩

theorem enumMap_repair_nums (s : Nat) (items : List JObj)
    (hnone : ∀ q ∈ items, jget q "question_number" = none) :
    ∀ i, (enumMap (fun j q => repairItem s j q) i items).map
        (fun q => jget q "question_number")
      = (List.range items.length).map
          (fun (j : Nat) => some (JVal.int ((s : Int) + (i : Int) + (j : Int)))) := by
  induction items with
  | nil => intro i; rfl
  | cons q qs ih =>
    intro i
    have hq := hnone q (List.mem_cons_self q qs)
    have hqs : ∀ x ∈ qs, jget x "question_number" = none := fun x hx =>
      hnone x (List.mem_cons_of_mem q hx)
    simp only [enumMap, List.map_cons, List.length_cons, List.range_succ_eq_map,
      List.map_map]
    refine List.cons_eq_cons.mpr ⟨?_, ?_⟩
    · rw [repairItem_num_of_none s i q hq]
      simp only [Option.some.injEq, JVal.int.injEq]
      push_cast
      ring
    · rw [ih hqs (i + 1)]
      apply List.map_congr_left
      intro j _
      simp only [Function.comp_apply, Option.some.injEq, JVal.int.injEq]
      push_cast
      ring

/-! ### Lemmas about the full batch generator -/

theorem ctxFirstWord_error_inv (c d : String) (e : PyErr)
    (h : ctxFirstWord c d = .error e) :
    c ≠ "" ∧ splitWords c = [] ∧ e = .indexError := by
  unfold ctxFirstWord at h
  by_cases hc : c = ""
  · rw [if_pos hc] at h; exact absurd h (by simp)
  · rw [if_neg hc] at h
    cases hw : (splitWords c).head? with
    | none =>
      rw [hw] at h
      refine ⟨hc, List.head?_eq_none_iff.mp hw, ?_⟩
      simpa using h.symm
    | some w => rw [hw] at h; exact absurd h (by simp)

theorem padQuestions_error_inv (c : String) (s bs : Nat) (qb : List JObj) (e : PyErr)
    (h : padQuestions c s bs qb = .error e) :
    qb.length < bs ∧ c ≠ "" ∧ splitWords c = [] := by
  unfold padQuestions at h
  by_cases hb : bs ≤ qb.length
  · rw [if_pos hb] at h; exact absurd h (by simp)
  · rw [if_neg hb] at h
    cases hw : ctxFirstWord c "goals" with
    | error e' =>
      obtain ⟨h1, h2, _⟩ := ctxFirstWord_error_inv c "goals" e' hw
      exact ⟨by omega, h1, h2⟩
    | ok w => rw [hw] at h; exact absurd h (by simp)

theorem fallbackBatch_error_of_noword (c : String) (bs s : Nat)
    (hc : c ≠ "") (hw : splitWords c = []) (hbs : 0 < bs) :
    fallbackBatch c bs s = .error .indexError := by
  obtain ⟨n, rfl⟩ : ∃ n, bs = n + 1 := ⟨bs - 1, by omega⟩
  have hcw : ctxFirstWord c "this topic" = .error .indexError := by
    unfold ctxFirstWord
    rw [if_neg hc, hw]
    rfl
  have htext : fallbackQuestionText c 0 = .error .indexError := by
    unfold fallbackQuestionText
    rw [if_pos rfl, hcw]
    rfl
  have hbuild : buildFallbackTexts c 0 (n + 1) = .error .indexError := by
    unfold buildFallbackTexts
    rw [htext]
  unfold fallbackBatch
  rw [hbuild]

theorem gqb_inv_len (c p : String) (bs s : Nat) (f : LLM1) (snd : LLM2)
    (qb : List JObj) (meta : BatchMeta)
    (h : generate_question_batch c p bs s ⟨f, snd⟩ = .ok (qb, meta)) :
    qb.length = bs ∧ meta.batch_size = bs ∧ meta.starting_question_number = s := by
  cases f with
  | raise =>
    simp only [generate_question_batch] at h
    obtain ⟨h1, h2, _, _⟩ := fallbackBatch_inv c bs s qb meta h
    exact ⟨h1, by rw [h2], by rw [h2]⟩
  | unparsable =>
    simp only [generate_question_batch] at h
    obtain ⟨h1, h2, _, _⟩ := fallbackBatch_inv c bs s qb meta h
    exact ⟨h1, by rw [h2], by rw [h2]⟩
  | parsed t =>
    simp only [generate_question_batch] at h
    have htake : ((enumMap (fun i q => repairItem s i q) 0 t.items).take bs).length ≤ bs := by
      simp [List.length_take]
    cases hp : padQuestions c s bs ((enumMap (fun i q => repairItem s i q) 0 t.items).take bs) with
    | error e =>
      rw [hp] at h
      obtain ⟨h1, h2, _, _⟩ := fallbackBatch_inv c bs s qb meta h
      exact ⟨h1, by rw [h2], by rw [h2]⟩
    | ok qbP =>
      rw [hp] at h
      have hlen : qbP.length = bs := padQuestions_length c s bs _ qbP htake hp
      cases snd with
      | raise =>
        obtain ⟨h1, h2, _, _⟩ := fallbackBatch_inv c bs s qb meta h
        exact ⟨h1, by rw [h2], by rw [h2]⟩
      | unparsable =>
        simp only [Except.ok.injEq, Prod.mk.injEq] at h
        obtain ⟨hq, hm⟩ := h
        subst hq
        rw [← hm]
        exact ⟨hlen, hlen, rfl⟩
      | parsed m =>
        simp only [Except.ok.injEq, Prod.mk.injEq] at h
        obtain ⟨hq, hm⟩ := h
        subst hq
        rw [← hm]
        exact ⟨hlen, hlen, rfl⟩

theorem gqb_good (c p : String) (bs s : Nat) (f : LLM1) (snd : LLM2)
    (qb : List JObj) (meta : BatchMeta)
    (hwf : wellFormedFirst f)
    (h : generate_question_batch c p bs s ⟨f, snd⟩ = .ok (qb, meta)) :
    ∀ q ∈ qb, persistGood q := by
  cases f with
  | raise =>
    simp only [generate_question_batch] at h
    exact (fallbackBatch_inv c bs s qb meta h).2.2.2
  | unparsable =>
    simp only [generate_question_batch] at h
    exact (fallbackBatch_inv c bs s qb meta h).2.2.2
  | parsed t =>
    simp only [generate_question_batch] at h
    cases hp : padQuestions c s bs ((enumMap (fun i q => repairItem s i q) 0 t.items).take bs) with
    | error e =>
      rw [hp] at h
      exact (fallbackBatch_inv c bs s qb meta h).2.2.2
    | ok qbP =>
      rw [hp] at h
      have hgoodP : ∀ q ∈ qbP, persistGood q := by
        intro q hq
        rcases padQuestions_cases c s bs _ qbP hp with ⟨_, rfl⟩ | ⟨_, w, _, rfl⟩
        · obtain ⟨j, a, ha, rfl⟩ := enumMap_mem (List.take_subset bs _ hq)
          exact repairItem_good s j a (hwf a ha)
        · rcases List.mem_append.mp hq with hq' | hq'
          · obtain ⟨j, a, ha, rfl⟩ := enumMap_mem (List.take_subset bs _ hq')
            exact repairItem_good s j a (hwf a ha)
          · obtain ⟨j, _, rfl⟩ := List.mem_map.mp hq'
            exact ⟨⟨_, jget_fillerItem_text _ _⟩, ⟨_, jget_fillerItem_num _ _⟩⟩
      cases snd with
      | raise => exact (fallbackBatch_inv c bs s qb meta h).2.2.2
      | unparsable =>
        simp only [Except.ok.injEq, Prod.mk.injEq] at h
        obtain ⟨hq, _⟩ := h
        subst hq
        exact hgoodP
      | parsed m =>
        simp only [Except.ok.injEq, Prod.mk.injEq] at h
        obtain ⟨hq, _⟩ := h
        subst hq
        exact hgoodP

theorem gqb_ok_of (c p : String) (bs s : Nat) (f : LLM1) (snd : LLM2)
    (hword : c = "" ∨ splitWords c ≠ []) :
    ∃ qb meta, generate_question_batch c p bs s ⟨f, snd⟩ = .ok (qb, meta) := by
  cases f with
  | raise =>
    obtain ⟨qs, heq, _, _, _⟩ := fallbackBatch_spec c bs s hword
    exact ⟨qs, _, by simp only [generate_question_batch]; exact heq⟩
  | unparsable =>
    obtain ⟨qs, heq, _, _, _⟩ := fallbackBatch_spec c bs s hword
    exact ⟨qs, _, by simp only [generate_question_batch]; exact heq⟩
  | parsed t =>
    obtain ⟨out, hout⟩ :=
      padQuestions_ok_of c s bs ((enumMap (fun i q => repairItem s i q) 0 t.items).take bs) hword
    cases snd with
    | raise =>
      obtain ⟨qs, heq, _, _, _⟩ := fallbackBatch_spec c bs s hword
      exact ⟨qs, _, by simp only [generate_question_batch]; rw [hout]; exact heq⟩
    | unparsable =>
      exact ⟨out, _, by simp only [generate_question_batch]; rw [hout]⟩
    | parsed m =>
      exact ⟨out, _, by simp only [generate_question_batch]; rw [hout]⟩

theorem gqb_nums (c p : String) (bs s : Nat) (f : LLM1) (snd : LLM2)
    (qb : List JObj) (meta : BatchMeta)
    (hnone : noExplicitNumbers f)
    (h : generate_question_batch c p bs s ⟨f, snd⟩ = .ok (qb, meta)) :
    qb.map (fun q => jget q "question_number")
      = (List.range bs).map (fun (j : Nat) => some (JVal.int ((s : Int) + (j : Int)))) := by
  cases f with
  | raise =>
    simp only [generate_question_batch] at h
    exact (fallbackBatch_inv c bs s qb meta h).2.2.1
  | unparsable =>
    simp only [generate_question_batch] at h
    exact (fallbackBatch_inv c bs s qb meta h).2.2.1
  | parsed t =>
    simp only [generate_question_batch] at h
    have hrep : (enumMap (fun i q => repairItem s i q) 0 t.items).map
        (fun q => jget q "question_number")
        = (List.range t.items.length).map
            (fun (j : Nat) => some (JVal.int ((s : Int) + (j : Int)))) := by
      rw [enumMap_repair_nums s t.items hnone 0]
      apply List.map_congr_left
      intro j _
      simp only [Option.some.injEq, JVal.int.injEq]
      push_cast
      ring
    have htrunc : ((enumMap (fun i q => repairItem s i q) 0 t.items).take bs).map
        (fun q => jget q "question_number")
        = (List.range (min bs t.items.length)).map
            (fun (j : Nat) => some (JVal.int ((s : Int) + (j : Int)))) := by
      rw [List.map_take, hrep, ← List.map_take, List.take_range]
    have hlen_trunc : ((enumMap (fun i q => repairItem s i q) 0 t.items).take bs).length
        = min bs t.items.length := by
      simp [List.length_take, enumMap_length]
    cases hp : padQuestions c s bs ((enumMap (fun i q => repairItem s i q) 0 t.items).take bs) with
    | error e =>
      rw [hp] at h
      exact (fallbackBatch_inv c bs s qb meta h).2.2.1
    | ok qbP =>
      rw [hp] at h
      have hnumsP : qbP.map (fun q => jget q "question_number")
          = (List.range bs).map (fun (j : Nat) => some (JVal.int ((s : Int) + (j : Int)))) := by
        rcases padQuestions_cases c s bs _ qbP hp with ⟨hge, rfl⟩ | ⟨hlt, w, _, rfl⟩
        · rw [htrunc]
          have hmin : min bs t.items.length = bs := by
            rw [hlen_trunc] at hge
            omega
          rw [hmin]
        · have hsplit : (List.range bs).map
              (fun (j : Nat) => some (JVal.int ((s : Int) + (j : Int))))
              = (List.range (min bs t.items.length)).map
                  (fun (j : Nat) => some (JVal.int ((s : Int) + (j : Int))))
                ++ (List.range (bs - min bs t.items.length)).map
                  (fun (j : Nat) => some (JVal.int
                    ((s : Int) + ((min bs t.items.length : Nat) : Int) + (j : Int)))) := by
            conv_lhs => rw [show bs = min bs t.items.length + (bs - min bs t.items.length) by omega]
            rw [List.range_add, List.map_append, List.map_map]
            refine congrArg₂ _ rfl ?_
            apply List.map_congr_left
            intro j _
            simp only [Function.comp_apply, Option.some.injEq, JVal.int.injEq]
            push_cast
            ring
          rw [List.map_append, htrunc, List.map_map, hlen_trunc, hsplit]
          refine congrArg₂ _ rfl ?_
          apply List.map_congr_left
          intro j _
          simp only [Function.comp_apply, jget_fillerItem_num, Option.some.injEq,
            JVal.int.injEq]
      cases snd with
      | raise =>
        exact (fallbackBatch_inv c bs s qb meta h).2.2.1
      | unparsable =>
        simp only [Except.ok.injEq, Prod.mk.injEq] at h
        obtain ⟨hq, _⟩ := h
        subst hq
        exact hnumsP
      | parsed m =>
        simp only [Except.ok.injEq, Prod.mk.injEq] at h
        obtain ⟨hq, _⟩ := h
        subst hq
        exact hnumsP

theorem gqb_flag_false (c p : String) (bs s : Nat) (t : JTop) (snd : LLM2)
    (qb : List JObj) (meta : BatchMeta)
    (hsnd : snd ≠ .raise)
    (h : generate_question_batch c p bs s ⟨.parsed t, snd⟩ = .ok (qb, meta)) :
    meta.fallback_generation = false := by
  simp only [generate_question_batch] at h
  cases hp : padQuestions c s bs ((enumMap (fun i q => repairItem s i q) 0 t.items).take bs) with
  | error e =>
    rw [hp] at h
    obtain ⟨hlt, hc, hw⟩ := padQuestions_error_inv c s bs _ e hp
    rw [fallbackBatch_error_of_noword c bs s hc hw (by omega)] at h
    exact absurd h (by simp)
  | ok qbP =>
    rw [hp] at h
    cases snd with
    | raise => exact absurd rfl hsnd
    | unparsable =>
      simp only [Except.ok.injEq, Prod.mk.injEq] at h
      rw [← h.2]
    | parsed m =>
      simp only [Except.ok.injEq, Prod.mk.injEq] at h
      rw [← h.2]

theorem gqb_meta_heuristic (c p : String) (bs s : Nat) (t : JTop)
    (qb : List JObj) (meta : BatchMeta)
    (h : generate_question_batch c p bs s ⟨.parsed t, .unparsable⟩ = .ok (qb, meta)) :
    meta.next_batch_needed = heuristicNeeded s bs
    ∧ meta.total_questions_estimated = some (heuristicTotal s bs)
    ∧ meta.fallback_generation = false := by
  simp only [generate_question_batch] at h
  have htake : ((enumMap (fun i q => repairItem s i q) 0 t.items).take bs).length ≤ bs := by
    simp [List.length_take]
  cases hp : padQuestions c s bs ((enumMap (fun i q => repairItem s i q) 0 t.items).take bs) with
  | error e =>
    rw [hp] at h
    obtain ⟨hlt, hc, hw⟩ := padQuestions_error_inv c s bs _ e hp
    rw [fallbackBatch_error_of_noword c bs s hc hw (by omega)] at h
    exact absurd h (by simp)
  | ok qbP =>
    rw [hp] at h
    have hlen : qbP.length = bs := padQuestions_length c s bs _ qbP htake hp
    simp only [Except.ok.injEq, Prod.mk.injEq] at h
    rw [← h.2, hlen]
    exact ⟨rfl, rfl, rfl⟩

theorem gqb_fallback_meta (c p : String) (bs s : Nat) (snd : LLM2)
    (hword : c = "" ∨ splitWords c ≠ []) :
    ∃ qb meta, generate_question_batch c p bs s ⟨.raise, snd⟩ = .ok (qb, meta)
      ∧ qb.length = bs
      ∧ meta.fallback_generation = true
      ∧ meta.next_batch_needed = heuristicNeeded s bs
      ∧ meta.total_questions_estimated = some (heuristicTotal s bs) := by
  obtain ⟨qs, heq, hlen, _, _⟩ := fallbackBatch_spec c bs s hword
  refine ⟨qs,
    { batch_size := bs
      starting_question_number := s
      ending_question_number := s + bs - 1
      next_batch_needed := heuristicNeeded s bs
      total_questions_estimated := some (heuristicTotal s bs)
      fallback_generation := true }, ?_, hlen, rfl, rfl, rfl⟩
  simp only [generate_question_batch]
  exact heq

/-! ### Lemmas about the persistence loop -/

theorem persistQuestions_forall₂ (cid : Nat) :
    ∀ (qb : List JObj) (st : DBState) (items : List QuestionItem) (st' : DBState),
      persistQuestions cid st qb = (.ok items, st') →
      List.Forall₂ (fun (q : JObj) (it : QuestionItem) =>
        jget q "question_text" = some (JVal.str it.question_text) ∧
        jget q "question_number" = some (JVal.int it.question_number)) qb items := by
  intro qb
  induction qb with
  | nil =>
    intro st items st' h
    simp only [persistQuestions, Prod.mk.injEq] at h
    rw [show items = [] by simpa using h.1.symm]
    exact List.Forall₂.nil
  | cons q qs ih =>
    intro st items st' h
    unfold persistQuestions at h
    cases hn : jget q "question_number" with
    | none =>
      rw [hn] at h
      cases ht : jget q "question_text" with
      | none => rw [ht] at h; simp at h
      | some v =>
        rw [ht] at h
        cases v with
        | str text => simp at h
        | int n => simp at h
        | bool b => simp at h
    | some v =>
      rw [hn] at h
      cases v with
      | str sv => simp at h
      | int n =>
        cases ht : jget q "question_text" with
        | none => rw [ht] at h; simp at h
        | some w =>
          rw [ht] at h
          cases w with
          | str text =>
            simp only at h
            cases hrec : persistQuestions cid
                (createMessage st cid "question" text
                  (get_next_sequence_number st cid)).2 qs with
            | mk r st2 =>
              rw [hrec] at h
              cases r with
              | error e => simp at h
              | ok items' =>
                simp only [Prod.mk.injEq, Except.ok.injEq] at h
                rw [← h.1]
                exact List.Forall₂.cons ⟨ht, hn⟩ (ih _ items' st2 hrec)
          | int m => simp at h
          | bool b => simp at h
      | bool b =>
        cases ht : jget q "question_text" with
        | none => rw [ht] at h; simp at h
        | some w =>
          rw [ht] at h
          cases w with
          | str text => simp at h
          | int m => simp at h
          | bool b' => simp at h

theorem persistQuestions_ok (cid : Nat) :
    ∀ (qb : List JObj) (st : DBState), (∀ q ∈ qb, persistGood q) →
      ∃ items st', persistQuestions cid st qb = (.ok items, st') := by
  intro qb
  induction qb with
  | nil => intro st _; exact ⟨[], st, rfl⟩
  | cons q qs ih =>
    intro st hgood
    obtain ⟨⟨text, ht⟩, ⟨n, hn⟩⟩ := hgood q (List.mem_cons_self q qs)
    obtain ⟨items, st', hrec⟩ := ih
      (createMessage st cid "question" text (get_next_sequence_number st cid)).2
      (fun x hx => hgood x (List.mem_cons_of_mem q hx))
    refine ⟨⟨text, n⟩ :: items, st', ?_⟩
    unfold persistQuestions
    rw [hn, ht]
    simp only
    rw [hrec]

theorem forall₂_nums {qb : List JObj} {items : List QuestionItem}
    (h : List.Forall₂ (fun (q : JObj) (it : QuestionItem) =>
        jget q "question_text" = some (JVal.str it.question_text) ∧
        jget q "question_number" = some (JVal.int it.question_number)) qb items) :
    qb.map (fun q => jget q "question_number")
      = items.map (fun it => some (JVal.int it.question_number)) := by
  induction h with
  | nil => rfl
  | cons hrel _ ih => simp [hrel.2, ih]

/-! ### Lemmas about sequence numbers -/

theorem latest_fold_spec :
    ∀ (l : List Message) (acc : Option Message),
      (∀ r, l.foldl (fun acc m =>
          match acc with
          | none => some m
          | some b => if b.sequence_number < m.sequence_number then some m else some b)
          acc = some r →
        (acc = some r ∨ r ∈ l) ∧
        (∀ b, acc = some b → b.sequence_number ≤ r.sequence_number) ∧
        (∀ x ∈ l, x.sequence_number ≤ r.sequence_number)) ∧
      (l.foldl (fun acc m =>
          match acc with
          | none => some m
          | some b => if b.sequence_number < m.sequence_number then some m else some b)
          acc = none →
        acc = none ∧ l = []) := by
  intro l
  induction l with
  | nil =>
    intro acc
    refine ⟨?_, ?_⟩
    · intro r hr
      simp only [List.foldl_nil] at hr
      exact ⟨Or.inl hr, fun b hb => by rw [hb] at hr; simp at hr; rw [hr], by simp⟩
    · intro hr
      simp only [List.foldl_nil] at hr
      exact ⟨hr, rfl⟩
  | cons m ms ih =>
    intro acc
    refine ⟨?_, ?_⟩
    · intro r hr
      rw [List.foldl_cons] at hr
      cases acc with
      | none =>
        simp only at hr
        obtain ⟨hmem, hacc, hall⟩ := (ih (some m)).1 r hr
        refine ⟨?_, by simp, ?_⟩
        · rcases hmem with hmem | hmem
          · exact Or.inr (by rw [show r = m by simpa using hmem.symm]; exact List.mem_cons_self m ms)
          · exact Or.inr (List.mem_cons_of_mem m hmem)
        · intro x hx
          rcases List.mem_cons.mp hx with rfl | hx
          · exact hacc x rfl
          · exact hall x hx
      | some b =>
        by_cases hlt : b.sequence_number < m.sequence_number
        · simp only [if_pos hlt] at hr
          obtain ⟨hmem, hacc, hall⟩ := (ih (some m)).1 r hr
          have hm_le : m.sequence_number ≤ r.sequence_number := hacc m rfl
          refine ⟨?_, ?_, ?_⟩
          · rcases hmem with hmem | hmem
            · exact Or.inr (by rw [show r = m by simpa using hmem.symm]; exact List.mem_cons_self m ms)
            · exact Or.inr (List.mem_cons_of_mem m hmem)
          · intro b' hb'
            have : b = b' := by simpa using hb'
            subst this
            omega
          · intro x hx
            rcases List.mem_cons.mp hx with rfl | hx
            · exact hm_le
            · exact hall x hx
        · simp only [if_neg hlt] at hr
          obtain ⟨hmem, hacc, hall⟩ := (ih (some b)).1 r hr
          have hb_le : b.sequence_number ≤ r.sequence_number := hacc b rfl
          refine ⟨?_, ?_, ?_⟩
          · rcases hmem with hmem | hmem
            · exact Or.inl hmem
            · exact Or.inr (List.mem_cons_of_mem m hmem)
          · intro b' hb'
            have : b = b' := by simpa using hb'
            subst this
            exact hb_le
          · intro x hx
            rcases List.mem_cons.mp hx with rfl | hx
            · omega
            · exact hall x hx
    · intro hr
      rw [List.foldl_cons] at hr
      cases acc with
      | none =>
        simp only at hr
        obtain ⟨hbad, _⟩ := (ih (some m)).2 hr
        exact absurd hbad (by simp)
      | some b =>
        by_cases hlt : b.sequence_number < m.sequence_number
        · simp only [if_pos hlt] at hr
          obtain ⟨hbad, _⟩ := (ih (some m)).2 hr
          exact absurd hbad (by simp)
        · simp only [if_neg hlt] at hr
          obtain ⟨hbad, _⟩ := (ih (some b)).2 hr
          exact absurd hbad (by simp)

theorem get_latest_message_none (st : DBState) (cid : Nat)
    (h : get_latest_message st cid = none) :
    st.messages.filter (fun m => m.conversation_id == cid) = [] := by
  unfold get_latest_message at h
  exact ((latest_fold_spec _ none).2 h).2

theorem get_latest_message_some (st : DBState) (cid : Nat) (r : Message)
    (h : get_latest_message st cid = some r) :
    r ∈ st.messages.filter (fun m => m.conversation_id == cid) ∧
    ∀ x ∈ st.messages.filter (fun m => m.conversation_id == cid),
      x.sequence_number ≤ r.sequence_number := by
  unfold get_latest_message at h
  obtain ⟨hmem, _, hall⟩ := (latest_fold_spec _ none).1 r h
  rcases hmem with hmem | hmem
  · exact absurd hmem (by simp)
  · exact ⟨hmem, hall⟩

theorem get_next_of_seqs (st : DBState) (cid : Nat) (n : Nat)
    (h : conversationSeqs st cid = List.range' 1 n) :
    get_next_sequence_number st cid = n + 1 := by
  unfold get_next_sequence_number
  cases hl : get_latest_message st cid with
  | none =>
    have hfilter := get_latest_message_none st cid hl
    unfold conversationSeqs at h
    rw [hfilter] at h
    have hn : n = 0 := by
      have h' : List.range' 1 n = [] := by simpa using h.symm
      exact List.range'_eq_nil.mp h'
    rw [hn]
  | some r =>
    obtain ⟨hmem, hall⟩ := get_latest_message_some st cid r hl
    have hrs : r.sequence_number ∈ conversationSeqs st cid :=
      List.mem_map_of_mem _ hmem
    have hmax : ∀ y ∈ conversationSeqs st cid, y ≤ r.sequence_number := by
      intro y hy
      obtain ⟨x, hx, rfl⟩ := List.mem_map.mp hy
      exact hall x hx
    rw [h] at hrs hmax
    have h1 := List.mem_range'_1.mp hrs
    have hn : 0 < n := by omega
    have hnmem : n ∈ List.range' 1 n := List.mem_range'_1.mpr ⟨by omega, by omega⟩
    have h2 := hmax n hnmem
    have h3 : r.sequence_number = n := by omega
    show r.sequence_number + 1 = n + 1
    omega

theorem filter_eq_nil_of_not_memMap (st : DBState) (cid : Nat)
    (hm : cid ∉ st.messages.map (fun m => m.conversation_id)) :
    st.messages.filter (fun m => m.conversation_id == cid) = [] := by
  rw [List.filter_eq_nil_iff]
  intro a ha
  simp only [beq_iff_eq]
  intro hcid
  exact hm (by rw [← hcid]; exact List.mem_map_of_mem _ ha)

theorem seqInv_all (st : DBState) (hinv : seqInv st) (cid : Nat) :
    conversationSeqs st cid = List.range' 1 (conversationSeqs st cid).length := by
  by_cases h : cid ∈ st.messages.map (fun m => m.conversation_id)
  · exact hinv cid h
  · unfold conversationSeqs
    rw [filter_eq_nil_of_not_memMap st cid h]
    rfl

theorem conversationSeqs_createMessage_same (st : DBState) (cid : Nat)
    (mt ct : String) (seq : Nat) :
    conversationSeqs ((createMessage st cid mt ct seq).2) cid
      = conversationSeqs st cid ++ [seq] := by
  unfold createMessage conversationSeqs
  simp only [List.filter_append, List.map_append]
  simp

theorem conversationSeqs_createMessage_other (st : DBState) (cid cid' : Nat)
    (mt ct : String) (seq : Nat) (h : cid' ≠ cid) :
    conversationSeqs ((createMessage st cid mt ct seq).2) cid'
      = conversationSeqs st cid' := by
  unfold createMessage conversationSeqs
  simp only [List.filter_append, List.map_append]
  have h' : (cid == cid') = false := by
    simp only [beq_eq_false_iff_ne]
    exact fun hx => h hx.symm
  simp [h']

theorem seqInv_congr_messages (st st' : DBState) (h : st'.messages = st.messages)
    (hinv : seqInv st) : seqInv st' := by
  intro cid hm
  have hcs : ∀ c, conversationSeqs st' c = conversationSeqs st c := by
    intro c
    unfold conversationSeqs
    rw [h]
  rw [hcs cid]
  exact seqInv_all st hinv cid

theorem seqInv_createMessage_next (st : DBState) (cid : Nat) (mt ct : String)
    (hinv : seqInv st) :
    seqInv ((createMessage st cid mt ct (get_next_sequence_number st cid)).2) := by
  intro cid' _
  by_cases h : cid' = cid
  · subst h
    rw [conversationSeqs_createMessage_same]
    have hn := seqInv_all st hinv cid'
    have hnext := get_next_of_seqs st cid' _ hn
    rw [hn, hnext]
    have hconcat : List.range' 1 ((conversationSeqs st cid').length + 1)
        = List.range' 1 (conversationSeqs st cid').length
          ++ [1 + (conversationSeqs st cid').length] := by
      have := @List.range'_concat 1 1 (conversationSeqs st cid').length
      simpa using this
    have hlen : (List.range' 1 (conversationSeqs st cid').length
        ++ [(conversationSeqs st cid').length + 1]).length
        = (conversationSeqs st cid').length + 1 := by
      simp
    rw [hlen, hconcat]
    congr 1
    simp [Nat.add_comm]
  · rw [conversationSeqs_createMessage_other st cid cid' _ _ _ h]
    exact seqInv_all st hinv cid'

theorem seqInv_persist (cid : Nat) :
    ∀ (qb : List JObj) (st : DBState) (r : Except PyErr (List QuestionItem))
      (st' : DBState), seqInv st → persistQuestions cid st qb = (r, st') →
      seqInv st' := by
  intro qb
  induction qb with
  | nil =>
    intro st r st' hinv h
    simp only [persistQuestions, Prod.mk.injEq] at h
    rw [← h.2]
    exact hinv
  | cons q qs ih =>
    intro st r st' hinv h
    unfold persistQuestions at h
    have hinv1 : seqInv ((createMessage st cid "question"
        (match jget q "question_text" with
         | some (.str text) => text
         | _ => "") (get_next_sequence_number st cid)).2) := by
      exact seqInv_createMessage_next st cid _ _ hinv
    cases hn : jget q "question_number" with
    | none =>
      rw [hn] at h
      cases ht : jget q "question_text" with
      | none =>
        rw [ht] at h
        simp only [Prod.mk.injEq] at h
        rw [← h.2]
        exact hinv
      | some v =>
        rw [ht] at h
        cases v with
        | str text =>
          simp only [Prod.mk.injEq] at h
          rw [← h.2]
          exact seqInv_createMessage_next st cid _ _ hinv
        | int n =>
          simp only [Prod.mk.injEq] at h
          rw [← h.2]
          exact hinv
        | bool b =>
          simp only [Prod.mk.injEq] at h
          rw [← h.2]
          exact hinv
    | some v =>
      rw [hn] at h
      cases v with
      | str sv =>
        simp only [Prod.mk.injEq] at h
        rw [← h.2]
        exact hinv
      | int n =>
        cases ht : jget q "question_text" with
        | none =>
          rw [ht] at h
          simp only [Prod.mk.injEq] at h
          rw [← h.2]
          exact hinv
        | some w =>
          rw [ht] at h
          cases w with
          | str text =>
            simp only at h
            cases hrec : persistQuestions cid
                (createMessage st cid "question" text
                  (get_next_sequence_number st cid)).2 qs with
            | mk r2 st2 =>
              rw [hrec] at h
              have hinvc : seqInv (createMessage st cid "question" text
                  (get_next_sequence_number st cid)).2 :=
                seqInv_createMessage_next st cid _ _ hinv
              have hst2 : seqInv st2 := ih _ r2 st2 hinvc hrec
              cases r2 with
              | error e =>
                simp only [Prod.mk.injEq] at h
                rw [← h.2]
                exact hst2
              | ok items =>
                simp only [Prod.mk.injEq] at h
                rw [← h.2]
                exact hst2
          | int m =>
            simp only [Prod.mk.injEq] at h
            rw [← h.2]
            exact hinv
          | bool b =>
            simp only [Prod.mk.injEq] at h
            rw [← h.2]
            exact hinv
      | bool b =>
        cases ht : jget q "question_text" with
        | none =>
          rw [ht] at h
          simp only [Prod.mk.injEq] at h
          rw [← h.2]
          exact hinv
        | some w =>
          rw [ht] at h
          cases w with
          | str text =>
            simp only [Prod.mk.injEq] at h
            rw [← h.2]
            exact seqInv_createMessage_next st cid _ _ hinv
          | int m =>
            simp only [Prod.mk.injEq] at h
            rw [← h.2]
            exact hinv
          | bool b' =>
            simp only [Prod.mk.injEq] at h
            rw [← h.2]
            exact hinv

/-! ### Lemmas about session/conversation resolution -/

theorem gocs_state (st : DBState) (u c : Option String) :
    ((get_or_create_session st u c).2).messages = st.messages
    ∧ ((get_or_create_session st u c).2).conversations = st.conversations
    ∧ st.sessions.length ≤ ((get_or_create_session st u c).2).sessions.length
    ∧ ((get_or_create_session st u c).2).sessions.length ≤ st.sessions.length + 1 := by
  unfold get_or_create_session
  cases u with
  | none => simp [createSession]
  | some uid =>
    by_cases he : uid = ""
    · simp [he, createSession]
    · simp only [he, if_false]
      cases hl : get_by_user_identifier st uid with
      | some s => simp [hl]
      | none => simp [hl, createSession]

theorem gocc_state (st : DBState) (sid : Nat) (cido : Option Nat) (c : Option String) :
    ((get_or_create_conversation st sid cido c).2).messages = st.messages
    ∧ ((get_or_create_conversation st sid cido c).2).sessions = st.sessions
    ∧ st.conversations.length ≤ ((get_or_create_conversation st sid cido c).2).conversations.length
    ∧ ((get_or_create_conversation st sid cido c).2).conversations.length
        ≤ st.conversations.length + 1 := by
  unfold get_or_create_conversation
  cases cido with
  | none =>
    cases ha : get_active_by_user_session_id st sid with
    | some cc => simp [ha]
    | none => simp [ha, createConversation]
  | some cid =>
    cases hg : conversation_get st cid with
    | some cc => simp [hg]
    | none =>
      cases ha : get_active_by_user_session_id st sid with
      | some cc => simp [hg, ha]
      | none => simp [hg, ha, createConversation]

theorem count_congr_messages (st st' : DBState) (cid : Nat) (t : String)
    (h : st'.messages = st.messages) :
    count_by_conversation st' cid t = count_by_conversation st cid t := by
  unfold count_by_conversation
  rw [h]

theorem format_previous_messages_nil :
    format_previous_messages [] = ("", false) := rfl

theorem format_previous_messages_cons (m : MessageItem) (ms : List MessageItem) :
    (format_previous_messages (m :: ms)).2 = true := rfl

theorem format_previous_messages_cons_eq (m : MessageItem) (ms : List MessageItem) :
    format_previous_messages (m :: ms)
      = (String.intercalate "\n"
          ((m :: ms).map (fun x => pyCapitalize x.role ++ ": " ++ x.content)), true) := rfl

/-! ### Inversion of a successful generation call -/

theorem generate_question_ok_inv (st : DBState) (env : GenEnv) (req : QuestionRequest)
    (resp : QuestionResponse) (stF : DBState) (envF : GenEnv)
    (h : generate_question st env req = (.ok resp, stF, envF)) :
    ∃ (o : GenOracle) (env2 : GenEnv) (sid : Nat) (st1 : DBState) (cid : Nat)
      (st2 : DBState) (ctxU pmU : String) (qb : List JObj) (meta : BatchMeta)
      (items : List QuestionItem) (st3 : DBState),
      nextOracle env = (o, env2) ∧ envF = env2 ∧
      get_or_create_session st req.user_id req.context = (sid, st1) ∧
      get_or_create_conversation st1 sid req.conversation_id req.context = (cid, st2) ∧
      generate_question_batch ctxU pmU
        (if req.previous_messages = [] then 5 else 3)
        (count_by_conversation st2 cid "question" + 1) o.llm = .ok (qb, meta) ∧
      persistQuestions cid st2 qb = (.ok items, st3) ∧
      stF = st3 ∧
      resp.questions = items ∧
      resp.conversation_id = cid ∧
      resp.session_id = sid ∧
      resp.current_question_number = count_by_conversation st2 cid "question" + 1 ∧
      resp.total_questions_in_batch = items.length ∧
      resp.total_questions_estimated = meta.total_questions_estimated.getD 8 ∧
      resp.next_batch_needed = meta.next_batch_needed ∧
      resp.batch_metadata = meta := by
  unfold generate_question at h
  rcases hno : nextOracle env with ⟨o, env2⟩
  rw [hno] at h
  simp only at h
  rcases hs : get_or_create_session st req.user_id req.context with ⟨sid, st1⟩
  rw [hs] at h
  simp only at h
  rcases hc : get_or_create_conversation st1 sid req.conversation_id req.context
    with ⟨cid, st2⟩
  rw [hc] at h
  simp only at h
  refine ⟨o, env2, sid, st1, cid, st2, ?_⟩
  cases hpml : req.previous_messages with
  | nil =>
    rw [hpml] at h
    simp only [format_previous_messages_nil, Bool.not_false, if_true, false_and,
      if_false, ite_true, Bool.false_eq_true, not_false_eq_true] at h
    split at h
    · exact absurd h (by simp)
    · rename_i questions_batch batch_metadata hb
      split at h
      · exact absurd h (by simp)
      · rename_i question_items st3 hp
        split at h
        · exact absurd h (by simp)
        · rename_i firstItem hh
          simp only [Prod.mk.injEq, Except.ok.injEq] at h
          obtain ⟨hresp, hst, henv⟩ := h
          refine ⟨req.context.getD "", "", questions_batch, batch_metadata,
            question_items, st3, rfl, henv.symm, rfl, hc, hb, hp, hst.symm, ?_⟩
          rw [← hresp]
          exact ⟨rfl, rfl, rfl, rfl, rfl, rfl, rfl, rfl⟩
  | cons m0 ms =>
    rw [hpml] at h
    simp only [format_previous_messages_cons_eq] at h
    simp only [Bool.not_true, true_and, Bool.false_eq_true,
      if_false, ite_false, not_true_eq_false] at h
    by_cases hctx : (req.context.getD "") = ""
    · rw [hctx] at h
      simp only [ne_eq, not_true_eq_false, if_false, ite_false] at h
      split at h
      · exact absurd h (by simp)
      · rename_i questions_batch batch_metadata hb
        split at h
        · exact absurd h (by simp)
        · rename_i question_items st3 hp
          split at h
          · exact absurd h (by simp)
          · rename_i firstItem hh
            simp only [Prod.mk.injEq, Except.ok.injEq] at h
            obtain ⟨hresp, hst, henv⟩ := h
            refine ⟨"", _, questions_batch, batch_metadata,
              question_items, st3, rfl, henv.symm, rfl, hc, hb, hp, hst.symm, ?_⟩
            rw [← hresp]
            exact ⟨rfl, rfl, rfl, rfl, rfl, rfl, rfl, rfl⟩
    · rw [if_pos hctx] at h
      cases hlu : get_last_user_message (m0 :: ms) with
      | none =>
        rw [hlu] at h
        split at h
        · exact absurd h (by simp)
        · rename_i questions_batch batch_metadata hb
          split at h
          · exact absurd h (by simp)
          · rename_i question_items st3 hp
            split at h
            · exact absurd h (by simp)
            · rename_i firstItem hh
              rw [if_pos hctx] at h
              exact absurd h (by simp)
      | some lu =>
        rw [hlu] at h
        split at h
        · exact absurd h (by simp)
        · rename_i questions_batch batch_metadata hb
          split at h
          · exact absurd h (by simp)
          · rename_i question_items st3 hp
            split at h
            · exact absurd h (by simp)
            · rename_i firstItem hh
              rw [if_pos hctx] at h
              simp only [Prod.mk.injEq, Except.ok.injEq] at h
              obtain ⟨hresp, hst, henv⟩ := h
              refine ⟨_, _, questions_batch, batch_metadata, question_items, st3,
                rfl, henv.symm, rfl, hc, hb, hp, hst.symm, ?_⟩
              rw [← hresp]
              exact ⟨rfl, rfl, rfl, rfl, rfl, rfl, rfl, rfl⟩

/-! ### Derived facts about a successful generation call -/

theorem generate_question_ok_length (st : DBState) (env : GenEnv) (req : QuestionRequest)
    (resp : QuestionResponse) (stF : DBState) (envF : GenEnv)
    (h : generate_question st env req = (.ok resp, stF, envF)) :
    resp.questions.length = (if req.previous_messages = [] then 5 else 3)
    ∧ resp.total_questions_in_batch = (if req.previous_messages = [] then 5 else 3) := by
  obtain ⟨o, env2, sid, st1, cid, st2, ctxU, pmU, qb, meta, items, st3,
    hno, henv, hs, hc, hb, hp, hstF, hq, hcid, hsid, hcqn, htib, htqe, hnb, hbm⟩ :=
    generate_question_ok_inv st env req resp stF envF h
  have hlen := (gqb_inv_len ctxU pmU _ _ o.llm.first o.llm.second qb meta hb).1
  have hf2 := persistQuestions_forall₂ cid qb st2 items st3 hp
  have hlen2 : items.length = qb.length := hf2.length_eq.symm
  constructor
  · rw [hq, hlen2, hlen]
  · rw [htib, hlen2, hlen]

theorem get_active_mem (st : DBState) (sid : Nat) (cc : Conversation)
    (h : get_active_by_user_session_id st sid = some cc) : cc ∈ st.conversations := by
  unfold get_active_by_user_session_id at h
  cases hl : (st.conversations.filter
      (fun c => c.user_session_id == sid && c.is_active)).reverse with
  | nil => rw [hl] at h; exact absurd h (by simp)
  | cons a as =>
    rw [hl] at h
    have ha : a = cc := by simpa using h
    subst ha
    have : a ∈ (st.conversations.filter
        (fun c => c.user_session_id == sid && c.is_active)).reverse := by
      rw [hl]; exact List.mem_cons_self a as
    rw [List.mem_reverse] at this
    exact (List.mem_filter.mp this).1

theorem conversation_get_mem (st : DBState) (cid : Nat) (c : Conversation)
    (h : conversation_get st cid = some c) : c ∈ st.conversations ∧ c.id = cid := by
  unfold conversation_get at h
  refine ⟨List.mem_of_find?_eq_some h, ?_⟩
  have := List.find?_some h
  simpa using this

theorem conversation_get_congr (st st' : DBState) (cid : Nat)
    (h : st'.conversations = st.conversations) :
    conversation_get st' cid = conversation_get st cid := by
  unfold conversation_get
  rw [h]

theorem get_by_user_identifier_congr (st st' : DBState) (uid : String)
    (h : st'.sessions = st.sessions) :
    get_by_user_identifier st' uid = get_by_user_identifier st uid := by
  unfold get_by_user_identifier
  rw [h]

theorem gocc_exists (st : DBState) (sid : Nat) (cido : Option Nat) (c : Option String)
    (cid : Nat) (st' : DBState)
    (h : get_or_create_conversation st sid cido c = (cid, st')) :
    ∃ cv ∈ st'.conversations, cv.id = cid := by
  unfold get_or_create_conversation at h
  cases cido with
  | none =>
    simp only at h
    cases ha : get_active_by_user_session_id st sid with
    | some cc =>
      rw [ha] at h
      simp only [Prod.mk.injEq] at h
      exact ⟨cc, by rw [← h.2]; exact get_active_mem st sid cc ha, h.1⟩
    | none =>
      rw [ha] at h
      simp only [createConversation, Prod.mk.injEq] at h
      refine ⟨⟨st.nextId, sid,
        (if truthy c then takeChars (c.getD "") 50 else "New conversation"), true⟩, ?_, ?_⟩
      · rw [← h.2]
        simp
      · simpa using h.1
  | some cidv =>
    simp only at h
    cases hg : conversation_get st cidv with
    | some cc =>
      rw [hg] at h
      simp only [Prod.mk.injEq] at h
      exact ⟨cc, by rw [← h.2]; exact (conversation_get_mem st cidv cc hg).1, h.1⟩
    | none =>
      rw [hg] at h
      cases ha : get_active_by_user_session_id st sid with
      | some cc =>
        rw [ha] at h
        simp only [Prod.mk.injEq] at h
        exact ⟨cc, by rw [← h.2]; exact get_active_mem st sid cc ha, h.1⟩
      | none =>
        rw [ha] at h
        simp only [createConversation, Prod.mk.injEq] at h
        refine ⟨⟨st.nextId, sid,
          (if truthy c then takeChars (c.getD "") 50 else "New conversation"), true⟩, ?_, ?_⟩
        · rw [← h.2]
          simp
        · simpa using h.1

theorem gocc_of_existing (st : DBState) (sid : Nat) (cidv : Nat) (ctx : Option String)
    (hex : ∃ cv ∈ st.conversations, cv.id = cidv) :
    get_or_create_conversation st sid (some cidv) ctx = (cidv, st) := by
  obtain ⟨cv, hmem, hid⟩ := hex
  have hfind : ∃ c', conversation_get st cidv = some c' := by
    unfold conversation_get
    have : (st.conversations.find? (fun c => c.id == cidv)).isSome := by
      rw [List.find?_isSome]
      exact ⟨cv, hmem, by simp [hid]⟩
    cases hx : st.conversations.find? (fun c => c.id == cidv) with
    | none => rw [hx] at this; simp at this
    | some c' => exact ⟨c', rfl⟩
  obtain ⟨c', hc'⟩ := hfind
  have hcid : c'.id = cidv := (conversation_get_mem st cidv c' hc').2
  unfold get_or_create_conversation
  simp only
  rw [hc']
  simp [hcid]

theorem persist_other_tables (cid : Nat) :
    ∀ (qb : List JObj) (st : DBState) (r : Except PyErr (List QuestionItem))
      (st' : DBState), persistQuestions cid st qb = (r, st') →
      st'.conversations = st.conversations ∧ st'.sessions = st.sessions := by
  intro qb
  induction qb with
  | nil =>
    intro st r st' h
    simp only [persistQuestions, Prod.mk.injEq] at h
    rw [← h.2]
    exact ⟨rfl, rfl⟩
  | cons q qs ih =>
    intro st r st' h
    unfold persistQuestions at h
    cases hn : jget q "question_number" with
    | none =>
      rw [hn] at h
      cases ht : jget q "question_text" with
      | none =>
        rw [ht] at h
        simp only [Prod.mk.injEq] at h
        rw [← h.2]; exact ⟨rfl, rfl⟩
      | some v =>
        rw [ht] at h
        cases v <;> simp only [Prod.mk.injEq] at h <;> rw [← h.2] <;>
          simp [createMessage]
    | some v =>
      rw [hn] at h
      cases v with
      | str sv =>
        simp only [Prod.mk.injEq] at h
        rw [← h.2]; exact ⟨rfl, rfl⟩
      | int n =>
        cases ht : jget q "question_text" with
        | none =>
          rw [ht] at h
          simp only [Prod.mk.injEq] at h
          rw [← h.2]; exact ⟨rfl, rfl⟩
        | some w =>
          rw [ht] at h
          cases w with
          | str text =>
            simp only at h
            cases hrec : persistQuestions cid
                (createMessage st cid "question" text
                  (get_next_sequence_number st cid)).2 qs with
            | mk r2 st2 =>
              rw [hrec] at h
              obtain ⟨h1, h2⟩ := ih _ r2 st2 hrec
              have hcm : ((createMessage st cid "question" text
                  (get_next_sequence_number st cid)).2).conversations = st.conversations
                  ∧ ((createMessage st cid "question" text
                  (get_next_sequence_number st cid)).2).sessions = st.sessions := by
                simp [createMessage]
              cases r2 with
              | error e =>
                simp only [Prod.mk.injEq] at h
                rw [← h.2]
                exact ⟨h1.trans hcm.1, h2.trans hcm.2⟩
              | ok items =>
                simp only [Prod.mk.injEq] at h
                rw [← h.2]
                exact ⟨h1.trans hcm.1, h2.trans hcm.2⟩
          | int m =>
            simp only [Prod.mk.injEq] at h
            rw [← h.2]; exact ⟨rfl, rfl⟩
          | bool b =>
            simp only [Prod.mk.injEq] at h
            rw [← h.2]; exact ⟨rfl, rfl⟩
      | bool b =>
        cases ht : jget q "question_text" with
        | none =>
          rw [ht] at h
          simp only [Prod.mk.injEq] at h
          rw [← h.2]; exact ⟨rfl, rfl⟩
        | some w =>
          rw [ht] at h
          cases w <;> simp only [Prod.mk.injEq] at h <;> rw [← h.2] <;>
            simp [createMessage]

theorem generate_question_ok_conv_exists (st : DBState) (env : GenEnv)
    (req : QuestionRequest) (resp : QuestionResponse) (stF : DBState) (envF : GenEnv)
    (h : generate_question st env req = (.ok resp, stF, envF)) :
    ∃ cv ∈ stF.conversations, cv.id = resp.conversation_id := by
  obtain ⟨o, env2, sid, st1, cid, st2, ctxU, pmU, qb, meta, items, st3,
    hno, henv, hs, hc, hb, hp, hstF, hq, hcid, hsid, hcqn, htib, htqe, hnb, hbm⟩ :=
    generate_question_ok_inv st env req resp stF envF h
  obtain ⟨cv, hmem, hid⟩ := gocc_exists st1 sid req.conversation_id req.context cid st2 hc
  refine ⟨cv, ?_, by rw [hid, hcid]⟩
  rw [hstF, (persist_other_tables cid qb st2 _ st3 hp).1]
  exact hmem

/-! ### The pipeline preserves the sequence-number invariant on every path -/

theorem generate_question_seqInv (st : DBState) (env : GenEnv) (req : QuestionRequest)
    (hinv : seqInv st) : seqInv ((generate_question st env req).2.1) := by
  rcases hgen : generate_question st env req with ⟨r, stF, envF⟩
  show seqInv stF
  unfold generate_question at hgen
  rcases hno : nextOracle env with ⟨o, env2⟩
  rw [hno] at hgen
  simp only at hgen
  rcases hs : get_or_create_session st req.user_id req.context with ⟨sid, st1⟩
  rw [hs] at hgen
  simp only at hgen
  rcases hc : get_or_create_conversation st1 sid req.conversation_id req.context
    with ⟨cid, st2⟩
  rw [hc] at hgen
  simp only at hgen
  have hm1 : st1.messages = st.messages := by
    have h0 := (gocs_state st req.user_id req.context).1
    rw [hs] at h0
    exact h0
  have hm2 : st2.messages = st1.messages := by
    have h0 := (gocc_state st1 sid req.conversation_id req.context).1
    rw [hc] at h0
    exact h0
  have hinv2 : seqInv st2 := seqInv_congr_messages st st2 (hm2.trans hm1) hinv
  split at hgen
  · simp only [Prod.mk.injEq] at hgen
    rw [← hgen.2.1]
    exact hinv2
  · rename_i questions_batch batch_metadata hb
    split at hgen
    · rename_i e st3 hp
      simp only [Prod.mk.injEq] at hgen
      rw [← hgen.2.1]
      exact seqInv_persist cid questions_batch st2 _ st3 hinv2 hp
    · rename_i question_items st3 hp
      have hinv3 : seqInv st3 :=
        seqInv_persist cid questions_batch st2 _ st3 hinv2 hp
      split at hgen
      · simp only [Prod.mk.injEq] at hgen
        rw [← hgen.2.1]
        exact hinv3
      · rename_i firstItem hh
        split at hgen
        · split at hgen
          · simp only [Prod.mk.injEq] at hgen
            rw [← hgen.2.1]
            exact hinv3
          · simp only [Prod.mk.injEq] at hgen
            rw [← hgen.2.1]
            exact hinv3
        · simp only [Prod.mk.injEq] at hgen
          rw [← hgen.2.1]
          exact hinv3

/-! ### Remaining small helpers -/

theorem filter_head_eq_find (p : α → Bool) :
    ∀ l : List α, (l.filter p).head? = l.find? p := by
  intro l
  induction l with
  | nil => rfl
  | cons a as ih =>
    by_cases hp : p a = true
    · simp [List.filter_cons, List.find?_cons, hp]
    · have hp' : p a = false := by simpa using hp
      simp [List.filter_cons, List.find?_cons, hp', ih]

theorem retryLoop1_attempts_le {α : Type} (f : Nat → Attempt α) :
    ∀ (fuel i : Nat), (retryLoop1 f i fuel).attempts ≤ fuel := by
  intro fuel
  induction fuel with
  | zero => intro i; simp [retryLoop1]
  | succ n ih =>
    intro i
    unfold retryLoop1
    cases f i with
    | ok a => simp
    | httpExn c d =>
      by_cases h1 : containsSubstr d initErrorMsg = true
      · simp only [h1, if_true]
        exact Nat.succ_le_succ (ih (i + 1))
      · have h1' : containsSubstr d initErrorMsg = false := by simpa using h1
        simp only [h1', Bool.false_eq_true, if_false]
        by_cases h2 : 3 ≤ i + 1
        · simp [h2]
        · simp only [h2, if_false]
          exact Nat.succ_le_succ (ih (i + 1))
    | exn msg =>
      by_cases h1 : containsSubstr msg initErrorMsg = true
      · simp only [h1, if_true]
        exact Nat.succ_le_succ (ih (i + 1))
      · have h1' : containsSubstr msg initErrorMsg = false := by simpa using h1
        simp only [h1', Bool.false_eq_true, if_false]
        by_cases h2 : 3 ≤ i + 1
        · simp [h2]
        · simp only [h2, if_false]
          exact Nat.succ_le_succ (ih (i + 1))

theorem retryLoopF_attempts_le {α : Type} (f : Nat → Attempt α) :
    ∀ (fuel i : Nat), (retryLoopF f i fuel).attempts ≤ fuel := by
  intro fuel
  induction fuel with
  | zero => intro i; simp [retryLoopF]
  | succ n ih =>
    intro i
    unfold retryLoopF
    cases f i with
    | ok a => simp
    | httpExn c d => simp
    | exn msg =>
      by_cases h2 : 3 ≤ i + 1
      · simp [h2]
      · simp only [h2, if_false]
        exact Nat.succ_le_succ (ih (i + 1))

theorem retryLoopA_attempts_le {α : Type} (f : Nat → Attempt α) :
    ∀ (fuel i : Nat), (retryLoopA f i fuel).attempts ≤ fuel := by
  intro fuel
  induction fuel with
  | zero => intro i; simp [retryLoopA]
  | succ n ih =>
    intro i
    unfold retryLoopA
    cases f i with
    | ok a => simp
    | httpExn c d =>
      by_cases h2 : 3 ≤ i + 1
      · simp [h2]
      · simp only [h2, if_false]
        exact Nat.succ_le_succ (ih (i + 1))
    | exn msg =>
      by_cases h2 : 3 ≤ i + 1
      · simp [h2]
      · simp only [h2, if_false]
        exact Nat.succ_le_succ (ih (i + 1))

theorem gqb_ok_of_llm (c p : String) (bs s : Nat) (llm : LLMOut)
    (hword : c = "" ∨ splitWords c ≠ []) :
    ∃ qb meta, generate_question_batch c p bs s llm = .ok (qb, meta) := by
  cases llm with
  | mk f snd => exact gqb_ok_of c p bs s f snd hword

/-! # Claim theorems -/

/-- C1: on every successful return of `generate_question` — including the
model-failure fallback path — the questions list has length exactly the
requested batch size: 5 when the request carries no previous messages and 3
when it does (over-long model output is truncated, short output padded). -/
theorem claim_batch_size_invariant (st : DBState) (env : GenEnv)
    (req : QuestionRequest) (resp : QuestionResponse) (stF : DBState) (envF : GenEnv)
    (h : generate_question st env req = (.ok resp, stF, envF)) :
    resp.questions.length = (if req.previous_messages = [] then 5 else 3)
    ∧ resp.total_questions_in_batch = (if req.previous_messages = [] then 5 else 3) :=
  generate_question_ok_length st env req resp stF envF h

theorem claim_batch_size_invariant_witness :
    generate_question DBState.empty [oracleRaise] reqInitial
      = (.ok respInitialFallback, runInitialFallback.2.1, runInitialFallback.2.2)
    ∧ respInitialFallback.questions.length
        = (if reqInitial.previous_messages = [] then 5 else 3) :=
  ⟨rfl, (claim_batch_size_invariant DBState.empty [oracleRaise] reqInitial
      respInitialFallback runInitialFallback.2.1 runInitialFallback.2.2 rfl).1⟩

/-- C6: a follow-up request whose previous-messages list is empty fails
immediately with HTTP 400, makes exactly one attempt with no backoff sleeps,
and leaves the store unchanged (no session, conversation, or message is
created). -/
theorem claim_followup_empty_prev_400 (st : DBState) (env : GenEnv)
    (req : QuestionRequest) (h : req.previous_messages = []) :
    followUpEndpoint req st env 0 3
      = (⟨.http 400 "previous_messages with user answers are required for follow-up questions",
          [], 1⟩, st, env) := by
  have hbody : followUpBody st env req
      = (.error (.http 400
          "previous_messages with user answers are required for follow-up questions"),
         st, env) := by
    unfold followUpBody
    rw [h]
    rfl
  show followUpEndpoint req st env 0 (2 + 1) = _
  unfold followUpEndpoint
  rw [hbody]

theorem claim_followup_empty_prev_400_witness :
    reqEmptyPrev.previous_messages = []
    ∧ followUpEndpoint reqEmptyPrev DBState.empty [oracle3] 0 3
        = (⟨.http 400 "previous_messages with user answers are required for follow-up questions",
            [], 1⟩, DBState.empty, [oracle3]) :=
  ⟨rfl, claim_followup_empty_prev_400 DBState.empty [oracle3] reqEmptyPrev rfl⟩

/-- C7 counterexample: with the non-empty whitespace-only context `" "`, a
failing first model call does not yield a batch of 5 fallback questions — the
fallback's `context.split()[0]` raises an `IndexError` and no response is
produced at all. -/
theorem claim_fallback_metadata_counterexample :
    generate_question_batch " " "" 5 1 ⟨.raise, .raise⟩ = .error .indexError := by
  rfl

/-- C7 amended: (a) when the continuation-assessment parse fails, the batch
metadata follows the heuristic `next_batch_needed = (starting + batchSize) < 8`
and `total_estimated = max(starting + batchSize + 2, 8)`; (b) when the first
model call fails and the context is empty or contains at least one word, the
batch still has exactly `batchSize` questions with the same heuristics and
`fallback_generation = true`; (c) the flag is never set when the first call
parsed and the second call returned (repair, truncation, or padding alone
never set it).  (For a non-empty whitespace-only context the fallback itself
raises and no response is produced — see the counterexample.) -/
theorem claim_fallback_metadata_amended :
    (∀ (c p : String) (bs s : Nat) (t : JTop) (qb : List JObj) (meta : BatchMeta),
      generate_question_batch c p bs s ⟨.parsed t, .unparsable⟩ = .ok (qb, meta) →
      meta.next_batch_needed = heuristicNeeded s bs
      ∧ meta.total_questions_estimated = some (heuristicTotal s bs)
      ∧ meta.fallback_generation = false)
    ∧ (∀ (c p : String) (bs s : Nat) (snd : LLM2), (c = "" ∨ splitWords c ≠ []) →
      ∃ qb meta, generate_question_batch c p bs s ⟨.raise, snd⟩ = .ok (qb, meta)
        ∧ qb.length = bs ∧ meta.fallback_generation = true
        ∧ meta.next_batch_needed = heuristicNeeded s bs
        ∧ meta.total_questions_estimated = some (heuristicTotal s bs))
    ∧ (∀ (c p : String) (bs s : Nat) (t : JTop) (snd : LLM2) (qb : List JObj)
        (meta : BatchMeta), snd ≠ .raise →
        generate_question_batch c p bs s ⟨.parsed t, snd⟩ = .ok (qb, meta) →
        meta.fallback_generation = false) :=
  ⟨fun c p bs s t qb meta h => gqb_meta_heuristic c p bs s t qb meta h,
   fun c p bs s snd hw => gqb_fallback_meta c p bs s snd hw,
   fun c p bs s t snd qb meta hs h => gqb_flag_false c p bs s t snd qb meta hs h⟩

theorem claim_fallback_metadata_amended_witness :
    (("Plan a trip" : String) = "" ∨ splitWords "Plan a trip" ≠ [])
    ∧ (∃ qb meta, generate_question_batch "Plan a trip" "" 5 1 ⟨.raise, .raise⟩
        = .ok (qb, meta)
        ∧ qb.length = 5 ∧ meta.fallback_generation = true
        ∧ meta.next_batch_needed = heuristicNeeded 1 5
        ∧ meta.total_questions_estimated = some (heuristicTotal 1 5)) :=
  ⟨Or.inr (by decide),
   claim_fallback_metadata_amended.2.1 "Plan a trip" "" 5 1 .raise (Or.inr (by decide))⟩

/-- C8: under the single-writer assumption, the sequence numbers of each
conversation's messages stay strictly increasing and gapless from 1 across
any `generate_question` call (all its message creations use
`get_next_sequence_number`), and the next sequence number is always the
previous count plus one — in particular 1 for a conversation with no
messages. -/
theorem claim_sequence_numbers_gapless (st : DBState) (env : GenEnv)
    (req : QuestionRequest) (hinv : seqInv st) :
    seqInv ((generate_question st env req).2.1)
    ∧ ∀ cid, get_next_sequence_number st cid = (conversationSeqs st cid).length + 1 :=
  ⟨generate_question_seqInv st env req hinv,
   fun cid => get_next_of_seqs st cid _ (seqInv_all st hinv cid)⟩

theorem claim_sequence_numbers_gapless_witness :
    seqInv DBState.empty
    ∧ seqInv ((generate_question DBState.empty [oracleRaise] reqInitial).2.1) :=
  ⟨by decide,
   (claim_sequence_numbers_gapless DBState.empty [oracleRaise] reqInitial (by decide)).1⟩

/-- C9 counterexample: with two stored sessions for the same external user
identifier, the lookup returns the older (first-inserted) one, not the
most-recent match as the claim states. -/
theorem claim_session_lookup_counterexample :
    (get_by_user_identifier stTwoSessions "u").map (fun s => s.id) = some 0
    ∧ (mostRecentByUserIdentifier stTwoSessions "u").map (fun s => s.id) = some 1
    ∧ get_by_user_identifier stTwoSessions "u"
        ≠ mostRecentByUserIdentifier stTwoSessions "u" := by
  refine ⟨rfl, rfl, ?_⟩
  decide

/-- C9 amended: the session lookup runs with no ORDER BY and takes the first
row, so it returns the *first matching session in table (insertion) order* —
`find?` semantics — not the most-recent match; the result, when present, is a
stored session with the queried identifier. -/
theorem claim_session_lookup_first_match (st : DBState) (uid : String) :
    get_by_user_identifier st uid
      = st.sessions.find? (fun s => s.user_identifier == some uid)
    ∧ ∀ s, get_by_user_identifier st uid = some s →
        s ∈ st.sessions ∧ s.user_identifier = some uid := by
  have hfind : get_by_user_identifier st uid
      = st.sessions.find? (fun s => s.user_identifier == some uid) := by
    unfold get_by_user_identifier
    exact filter_head_eq_find _ st.sessions
  refine ⟨hfind, ?_⟩
  intro s hs
  rw [hfind] at hs
  refine ⟨List.mem_of_find?_eq_some hs, ?_⟩
  have := List.find?_some hs
  simpa using this

theorem claim_session_lookup_first_match_witness :
    (get_by_user_identifier stTwoSessions "u"
        = stTwoSessions.sessions.find? (fun s => s.user_identifier == some "u"))
    ∧ (⟨0, some "u", none, true⟩ : UserSession) ∈ stTwoSessions.sessions :=
  ⟨(claim_session_lookup_first_match stTwoSessions "u").1,
   ((claim_session_lookup_first_match stTwoSessions "u").2
      ⟨0, some "u", none, true⟩ (by decide)).1⟩

/-- C2 counterexample: a model output whose five items each carry an explicit
`question_number` of 42 is returned as-is — the numbers are [42,42,42,42,42],
not the contiguous run 1..5 starting at `priorQuestionCount + 1 = 1` the claim
asserts for *every* model output. -/
theorem claim_question_numbers_counterexample :
    (Except.map (fun (r : QuestionResponse) =>
        (r.questions.map (fun q => q.question_number), r.current_question_number))
      (generate_question DBState.empty [oracle42] reqInitial).1)
      = .ok ([42, 42, 42, 42, 42], 1)
    ∧ ([42, 42, 42, 42, 42] : List Int)
        ≠ (List.range 5).map (fun (i : Nat) => (1 : Int) + (i : Int)) := by
  refine ⟨rfl, ?_⟩
  decide

/-- C2 amended: the question numbers of a successful batch form the
contiguous run starting at `priorQuestionCount + 1` for every model output
whose parsed items carry **no explicit `question_number` field** (the repair
pass assigns `starting + index` to those, and filler items continue the
numbering); the fallback path always numbers contiguously.  An item that does
carry a `question_number` keeps the model-supplied value, so contiguity can
fail (see the counterexample). -/
theorem claim_question_numbers_amended (st : DBState) (env : GenEnv)
    (req : QuestionRequest) (resp : QuestionResponse) (stF : DBState) (envF : GenEnv)
    (hnums : noExplicitNumbers (nextOracle env).1.llm.first)
    (h : generate_question st env req = (.ok resp, stF, envF)) :
    resp.questions.map (fun q => q.question_number)
      = (List.range resp.questions.length).map
          (fun (i : Nat) => ((resp.current_question_number : Int) + (i : Int)))
    ∧ resp.current_question_number
        = count_by_conversation st resp.conversation_id "question" + 1 := by
  obtain ⟨o, env2, sid, st1, cid, st2, ctxU, pmU, qb, meta, items, st3,
    hno, henv, hs, hc, hb, hp, hstF, hq, hcid, hsid, hcqn, htib, htqe, hnb, hbm⟩ :=
    generate_question_ok_inv st env req resp stF envF h
  rw [hno] at hnums
  have hqnums := gqb_nums ctxU pmU _ _ o.llm.first o.llm.second qb meta hnums hb
  have hlen := (gqb_inv_len ctxU pmU _ _ o.llm.first o.llm.second qb meta hb).1
  have hf2 := persistQuestions_forall₂ cid qb st2 items st3 hp
  have hitems := forall₂_nums hf2
  have hlen2 : items.length = qb.length := hf2.length_eq.symm
  have hinj : Function.Injective (fun (n : Int) => some (JVal.int n)) := by
    intro a b hab
    simpa using hab
  have hmaps : items.map (fun it => it.question_number)
      = (List.range (if req.previous_messages = [] then 5 else 3)).map
          (fun (j : Nat) => ((count_by_conversation st2 cid "question" + 1 : Nat) : Int)
            + (j : Int)) := by
    apply List.map_injective_iff.mpr hinj
    rw [List.map_map, List.map_map]
    have hl : items.map ((fun (n : Int) => some (JVal.int n)) ∘ fun it => it.question_number)
        = items.map (fun it => some (JVal.int it.question_number)) := rfl
    rw [hl, ← hitems, hqnums]
    apply List.map_congr_left
    intro j _
    rfl
  have hm1 : st1.messages = st.messages := by
    have h0 := (gocs_state st req.user_id req.context).1
    rw [hs] at h0
    exact h0
  have hm2 : st2.messages = st1.messages := by
    have h0 := (gocc_state st1 sid req.conversation_id req.context).1
    rw [hc] at h0
    exact h0
  have hcnt : count_by_conversation st2 cid "question"
      = count_by_conversation st cid "question" :=
    count_congr_messages st st2 cid "question" (hm2.trans hm1)
  constructor
  · rw [hq, hmaps, hcqn]
    have hql : items.length = (if req.previous_messages = [] then 5 else 3) := by
      rw [hlen2, hlen]
    rw [hql]
  · rw [hcqn, hcid, hcnt]

theorem claim_question_numbers_amended_witness :
    noExplicitNumbers (nextOracle [oracle3]).1.llm.first
    ∧ generate_question DBState.empty [oracle3] reqInitial
        = (.ok respInitialParsed, runInitialParsed.2.1, runInitialParsed.2.2)
    ∧ respInitialParsed.questions.map (fun q => q.question_number)
        = (List.range respInitialParsed.questions.length).map
            (fun (i : Nat) => ((respInitialParsed.current_question_number : Int) + (i : Int))) :=
  ⟨by decide, rfl,
   (claim_question_numbers_amended DBState.empty [oracle3] reqInitial
      respInitialParsed runInitialParsed.2.1 runInitialParsed.2.2 (by decide) rfl).1⟩

/-- C10: a request with non-empty previous messages and a non-empty context
but no message of role `"user"` (case-insensitively) never yields a response:
the `similar_contexts` local is only assigned on the branch where a last
user-authored message exists, so building the response metadata hits it
unassigned and `generate_question` raises even though every collaborator call
succeeded (well-formed model output, a context with at least one word). -/
theorem claim_no_user_role_unbound (st : DBState) (env : GenEnv)
    (req : QuestionRequest) (c : String)
    (hprev : req.previous_messages ≠ [])
    (hctx : req.context = some c)
    (hne : c ≠ "")
    (hword : splitWords c ≠ [])
    (hlu : get_last_user_message req.previous_messages = none)
    (hwf : wellFormedFirst (nextOracle env).1.llm.first) :
    (generate_question st env req).1 = .error .unboundSimilarContexts := by
  rcases hno : nextOracle env with ⟨o, env2⟩
  rw [hno] at hwf
  rcases hgen : generate_question st env req with ⟨r, stF, envF⟩
  show r = .error .unboundSimilarContexts
  unfold generate_question at hgen
  rw [hno] at hgen
  simp only at hgen
  rcases hs : get_or_create_session st req.user_id req.context with ⟨sid, st1⟩
  rw [hs] at hgen
  simp only at hgen
  rcases hc2 : get_or_create_conversation st1 sid req.conversation_id req.context
    with ⟨cid, st2⟩
  rw [hc2] at hgen
  simp only at hgen
  cases hpml : req.previous_messages with
  | nil => exact absurd hpml hprev
  | cons m0 ms =>
    rw [hpml] at hlu
    rw [hpml, hctx] at hgen
    simp only [format_previous_messages_cons_eq, Option.getD_some, Bool.not_true,
      Bool.false_eq_true, if_false, ite_false, not_true_eq_false, true_and] at hgen
    rw [hlu] at hgen
    rw [if_pos hne] at hgen
    obtain ⟨qb, meta, hb⟩ := gqb_ok_of_llm c
      (String.intercalate "\n"
        ((m0 :: ms).map (fun x => pyCapitalize x.role ++ ": " ++ x.content))) 3
      (count_by_conversation st2 cid "question" + 1) o.llm (Or.inr hword)
    rw [hb] at hgen
    simp only at hgen
    have hgood : ∀ q ∈ qb, persistGood q :=
      gqb_good c _ 3 (count_by_conversation st2 cid "question" + 1)
        o.llm.first o.llm.second qb meta hwf hb
    obtain ⟨items, st3, hp⟩ := persistQuestions_ok cid qb st2 hgood
    rw [hp] at hgen
    simp only at hgen
    have hlen : qb.length = 3 :=
      (gqb_inv_len c _ 3 (count_by_conversation st2 cid "question" + 1)
        o.llm.first o.llm.second qb meta hb).1
    have hilen : items.length = 3 :=
      (persistQuestions_forall₂ cid qb st2 items st3 hp).length_eq.symm.trans hlen
    cases items with
    | nil => simp at hilen
    | cons i0 irest =>
      simp only [List.head?_cons] at hgen
      rw [if_pos hne] at hgen
      simp only [Prod.mk.injEq] at hgen
      exact hgen.1.symm

theorem claim_no_user_role_unbound_witness :
    reqNoUserRole.previous_messages ≠ []
    ∧ reqNoUserRole.context = some "Plan a trip"
    ∧ ("Plan a trip" : String) ≠ ""
    ∧ splitWords "Plan a trip" ≠ []
    ∧ get_last_user_message reqNoUserRole.previous_messages = none
    ∧ (generate_question DBState.empty [oracle3] reqNoUserRole).1
        = .error .unboundSimilarContexts :=
  ⟨by decide, rfl, by decide, by decide, by decide,
   claim_no_user_role_unbound DBState.empty [oracle3] reqNoUserRole "Plan a trip"
     (by decide) rfl (by decide) (by decide) (by decide)
     (by
       intro q hq
       simp only [JTop.items, List.mem_cons, List.not_mem_nil, or_false] at hq
       rcases hq with rfl | rfl | rfl
       · exact ⟨⟨"A", rfl⟩, Or.inl rfl⟩
       · exact ⟨⟨"B", rfl⟩, Or.inl rfl⟩
       · exact ⟨⟨"C", rfl⟩, Or.inl rfl⟩)⟩

/-- C4 counterexample: (i) on the `/question` endpoint, three consecutive
attempts all raising the init-protocol error make the loop fall off its end
after three 1-second sleeps and return nothing — no 5xx with the attempt
count is produced; (ii) on the follow-up endpoint the init-protocol error has
no dedicated 1-second delay: the exponential backoff (0.5 s, 1 s) is applied
instead. -/
theorem claim_retry_policy_counterexample :
    retryLoop1 (fun _ => (Attempt.exn initErrorMsg : Attempt Nat)) 0 3
      = ⟨.nothing, [1000, 1000, 1000], 3⟩
    ∧ (retryLoopF (fun _ => (Attempt.exn initErrorMsg : Attempt Nat)) 0 3).sleeps
        = [500, 1000] := by
  exact ⟨rfl, rfl⟩

/-- C4 amended: each endpoint's retry loop makes at most 3 attempts; on
exhaustion by ordinary exceptions it sleeps 0.5 s × 2^(attempt−1) between
attempts (0.5 s, 1 s) and answers HTTP 500 naming the attempt count and the
last error.  The fixed 1-second init-error delay exists only on the initial
endpoint, where exhausting all attempts through that path ends the loop with
*no* response instead of a 5xx; the follow-up and automatic endpoints apply
the exponential backoff to every non-validation exception, the init-protocol
error included. -/
theorem claim_retry_policy_amended :
    (∀ (f : Nat → Attempt Nat),
      (retryLoop1 f 0 3).attempts ≤ 3 ∧ (retryLoopF f 0 3).attempts ≤ 3
      ∧ (retryLoopA f 0 3).attempts ≤ 3)
    ∧ (∀ (f : Nat → Attempt Nat) (m0 m1 m2 : String),
      f 0 = .exn m0 → f 1 = .exn m1 → f 2 = .exn m2 →
      containsSubstr m0 initErrorMsg = false →
      containsSubstr m1 initErrorMsg = false →
      containsSubstr m2 initErrorMsg = false →
      retryLoop1 f 0 3
        = ⟨.http 500 ("Failed to generate question after 3 attempts: " ++ m2),
           [500, 1000], 3⟩)
    ∧ (∀ (f : Nat → Attempt Nat) (m0 m1 m2 : String),
      f 0 = .exn m0 → f 1 = .exn m1 → f 2 = .exn m2 →
      containsSubstr m0 initErrorMsg = true →
      containsSubstr m1 initErrorMsg = true →
      containsSubstr m2 initErrorMsg = true →
      retryLoop1 f 0 3 = ⟨.nothing, [1000, 1000, 1000], 3⟩)
    ∧ (∀ (f : Nat → Attempt Nat) (m0 m1 m2 : String),
      f 0 = .exn m0 → f 1 = .exn m1 → f 2 = .exn m2 →
      retryLoopF f 0 3
        = ⟨.http 500 ("Failed to generate follow-up questions after 3 attempts: " ++ m2),
           [500, 1000], 3⟩)
    ∧ (∀ (f : Nat → Attempt Nat) (m0 m1 m2 : String),
      f 0 = .exn m0 → f 1 = .exn m1 → f 2 = .exn m2 →
      retryLoopA f 0 3
        = ⟨.http 500 ("Failed to generate automatic question flow after 3 attempts: " ++ m2),
           [500, 1000], 3⟩) := by
  refine ⟨fun f => ⟨retryLoop1_attempts_le f 3 0, retryLoopF_attempts_le f 3 0,
    retryLoopA_attempts_le f 3 0⟩, ?_, ?_, ?_, ?_⟩
  · intro f m0 m1 m2 h0 h1 h2 hc0 hc1 hc2
    unfold retryLoop1
    rw [h0]
    simp only [hc0, Bool.false_eq_true, if_false]
    norm_num
    unfold retryLoop1
    rw [h1]
    simp only [hc1, Bool.false_eq_true, if_false]
    norm_num
    unfold retryLoop1
    rw [h2]
    simp only [hc2, Bool.false_eq_true, if_false]
    norm_num
  · intro f m0 m1 m2 h0 h1 h2 hc0 hc1 hc2
    unfold retryLoop1
    rw [h0]
    simp only [hc0, if_true]
    unfold retryLoop1
    rw [h1]
    simp only [hc1, if_true]
    unfold retryLoop1
    rw [h2]
    simp only [hc2, if_true]
    rfl
  · intro f m0 m1 m2 h0 h1 h2
    unfold retryLoopF
    rw [h0]
    norm_num
    unfold retryLoopF
    rw [h1]
    norm_num
    unfold retryLoopF
    rw [h2]
    norm_num
  · intro f m0 m1 m2 h0 h1 h2
    unfold retryLoopA
    rw [h0]
    norm_num
    unfold retryLoopA
    rw [h1]
    norm_num
    unfold retryLoopA
    rw [h2]
    norm_num

theorem gocs_of_found (st : DBState) (uid : String) (c : Option String) (s : UserSession)
    (hne : uid ≠ "") (hl : get_by_user_identifier st uid = some s) :
    get_or_create_session st (some uid) c = (s.id, st) := by
  simp [get_or_create_session, hne, hl]

theorem gocs_lookup_after (st : DBState) (uid : String) (c : Option String)
    (hne : uid ≠ "") :
    ∃ s, get_by_user_identifier ((get_or_create_session st (some uid) c).2) uid = some s
      ∧ s.id = (get_or_create_session st (some uid) c).1 := by
  cases hl : get_by_user_identifier st uid with
  | some s =>
    rw [gocs_of_found st uid c s hne hl]
    exact ⟨s, hl, rfl⟩
  | none =>
    have hcomp : get_or_create_session st (some uid) c
        = (st.nextId,
           ⟨st.sessions ++ [⟨st.nextId, some uid, c, true⟩], st.conversations,
            st.messages, st.nextId + 1⟩) := by
      simp [get_or_create_session, createSession, hne, hl]
    rw [hcomp]
    refine ⟨⟨st.nextId, some uid, c, true⟩, ?_, rfl⟩
    unfold get_by_user_identifier at hl ⊢
    have hnil := List.head?_eq_none_iff.mp hl
    simp [List.filter_append, hnil]

theorem gocs_idem_second (st st' : DBState) (uid : String) (c c' : Option String)
    (hne : uid ≠ "")
    (hs : st'.sessions = ((get_or_create_session st (some uid) c).2).sessions) :
    get_or_create_session st' (some uid) c'
      = ((get_or_create_session st (some uid) c).1, st') := by
  obtain ⟨s, hl, hid⟩ := gocs_lookup_after st uid c hne
  have hcongr := get_by_user_identifier_congr ((get_or_create_session st (some uid) c).2)
    st' uid hs
  have hl' : get_by_user_identifier st' uid = some s := by rw [hcongr]; exact hl
  rw [gocs_of_found st' uid c' s hne hl', hid]

/-- C5 counterexample: a request that supplies the `session_id` and
`conversation_id` of records that already exist (and no user identifier) makes
the resolver create a brand-new session record on *every* call — the supplied
session identifier is ignored by `_get_or_create_session`, which looks up
sessions only by user identifier.  Two calls on the same identifiers grow the
session table from 1 to 3 rows. -/
theorem claim_resolution_idempotence_counterexample :
    reqWithIds.session_id = some 0
    ∧ reqWithIds.conversation_id = some 1
    ∧ reqWithIds.user_id = none
    ∧ (∃ s ∈ stAfterInitial.sessions, s.id = 0)
    ∧ (∃ cv ∈ stAfterInitial.conversations, cv.id = 1)
    ∧ stAfterInitial.sessions.length = 1
    ∧ ((generate_question stAfterInitial [oracle3] reqWithIds).2.1).sessions.length = 2
    ∧ ((generate_question ((generate_question stAfterInitial [oracle3] reqWithIds).2.1)
          [oracle3] reqWithIds).2.1).sessions.length = 3 :=
  ⟨rfl, rfl, rfl, by decide, by decide, rfl, rfl, rfl⟩

/-- C5 amended: the resolver (a) never re-creates a conversation whose id is
supplied and stored; (b) with a non-empty user identifier whose session exists
it returns that session's id and creates no session; (c) each call creates at
most one session and at most one conversation and never touches messages; and
(d) two consecutive calls with the same non-empty user identifier return the
same session id and the second call creates no session.  The request's
`session_id` is not an input of resolution at all, so idempotence keyed on a
supplied session identifier — as the spec states it — does not hold (see the
counterexample); idempotence holds only when keyed on the user identifier or
on a stored conversation id. -/
theorem claim_resolution_idempotence_amended :
    (∀ (st : DBState) (u c : Option String) (cid : Nat),
      (∃ cv ∈ st.conversations, cv.id = cid) →
      (resolve st u (some cid) c).1.2 = cid
      ∧ ((resolve st u (some cid) c).2).conversations = st.conversations)
    ∧ (∀ (st : DBState) (uid : String) (cido : Option Nat) (c : Option String)
        (s : UserSession), uid ≠ "" → get_by_user_identifier st uid = some s →
      (resolve st (some uid) cido c).1.1 = s.id
      ∧ ((resolve st (some uid) cido c).2).sessions = st.sessions)
    ∧ (∀ (st : DBState) (u : Option String) (cido : Option Nat) (c : Option String),
      ((resolve st u cido c).2).messages = st.messages
      ∧ st.sessions.length ≤ ((resolve st u cido c).2).sessions.length
      ∧ ((resolve st u cido c).2).sessions.length ≤ st.sessions.length + 1
      ∧ st.conversations.length ≤ ((resolve st u cido c).2).conversations.length
      ∧ ((resolve st u cido c).2).conversations.length ≤ st.conversations.length + 1)
    ∧ (∀ (st : DBState) (uid : String) (cido cido' : Option Nat) (c c' : Option String),
      uid ≠ "" →
      (resolve ((resolve st (some uid) cido c).2) (some uid) cido' c').1.1
        = (resolve st (some uid) cido c).1.1
      ∧ ((resolve ((resolve st (some uid) cido c).2) (some uid) cido' c').2).sessions
        = ((resolve st (some uid) cido c).2).sessions) := by
  refine ⟨?_, ?_, ?_, ?_⟩
  · intro st u c cid hex
    have hconv := (gocs_state st u c).2.1
    have hex1 : ∃ cv ∈ ((get_or_create_session st u c).2).conversations, cv.id = cid := by
      rw [hconv]; exact hex
    have hgc := gocc_of_existing ((get_or_create_session st u c).2)
      ((get_or_create_session st u c).1) cid c hex1
    constructor
    · show (get_or_create_conversation ((get_or_create_session st u c).2)
          ((get_or_create_session st u c).1) (some cid) c).1 = cid
      rw [hgc]
    · show ((get_or_create_conversation ((get_or_create_session st u c).2)
          ((get_or_create_session st u c).1) (some cid) c).2).conversations
        = st.conversations
      rw [hgc]
      exact hconv
  · intro st uid cido c s hne hl
    have hgs := gocs_of_found st uid c s hne hl
    constructor
    · show (get_or_create_session st (some uid) c).1 = s.id
      rw [hgs]
    · show ((get_or_create_conversation ((get_or_create_session st (some uid) c).2)
          ((get_or_create_session st (some uid) c).1) cido c).2).sessions = st.sessions
      rw [hgs]
      exact (gocc_state st s.id cido c).2.1
  · intro st u cido c
    obtain ⟨hm1, hc1, hs1a, hs1b⟩ := gocs_state st u c
    obtain ⟨hm2, hsess2, hc2a, hc2b⟩ := gocc_state ((get_or_create_session st u c).2)
      ((get_or_create_session st u c).1) cido c
    refine ⟨?_, ?_, ?_, ?_, ?_⟩
    · show ((get_or_create_conversation ((get_or_create_session st u c).2)
          ((get_or_create_session st u c).1) cido c).2).messages = st.messages
      rw [hm2]; exact hm1
    · show st.sessions.length ≤ ((get_or_create_conversation
          ((get_or_create_session st u c).2)
          ((get_or_create_session st u c).1) cido c).2).sessions.length
      rw [hsess2]; exact hs1a
    · show ((get_or_create_conversation ((get_or_create_session st u c).2)
          ((get_or_create_session st u c).1) cido c).2).sessions.length
        ≤ st.sessions.length + 1
      rw [hsess2]; exact hs1b
    · show st.conversations.length ≤ ((get_or_create_conversation
          ((get_or_create_session st u c).2)
          ((get_or_create_session st u c).1) cido c).2).conversations.length
      rw [← hc1]; exact hc2a
    · show ((get_or_create_conversation ((get_or_create_session st u c).2)
          ((get_or_create_session st u c).1) cido c).2).conversations.length
        ≤ st.conversations.length + 1
      rw [hc1] at hc2b; exact hc2b
  · intro st uid cido cido' c c' hne
    have hs2 : ((resolve st (some uid) cido c).2).sessions
        = ((get_or_create_session st (some uid) c).2).sessions := by
      show ((get_or_create_conversation ((get_or_create_session st (some uid) c).2)
          ((get_or_create_session st (some uid) c).1) cido c).2).sessions = _
      exact (gocc_state _ _ cido c).2.1
    have hidem := gocs_idem_second st ((resolve st (some uid) cido c).2) uid c c' hne hs2
    constructor
    · have hproj : (resolve st (some uid) cido c).1.1
          = (get_or_create_session st (some uid) c).1 := rfl
      show (get_or_create_session ((resolve st (some uid) cido c).2) (some uid) c').1
        = (resolve st (some uid) cido c).1.1
      rw [hidem]
      exact hproj.symm
    · show ((get_or_create_conversation
          ((get_or_create_session ((resolve st (some uid) cido c).2) (some uid) c').2)
          ((get_or_create_session ((resolve st (some uid) cido c).2) (some uid) c').1)
          cido' c').2).sessions
        = ((resolve st (some uid) cido c).2).sessions
      rw [(gocc_state ((get_or_create_session ((resolve st (some uid) cido c).2)
          (some uid) c').2)
        ((get_or_create_session ((resolve st (some uid) cido c).2) (some uid) c').1)
        cido' c').2.1]
      rw [hidem]

theorem claim_resolution_idempotence_amended_witness :
    ("u" : String) ≠ ""
    ∧ get_by_user_identifier stTwoSessions "u" = some ⟨0, some "u", none, true⟩
    ∧ (resolve stTwoSessions (some "u") none none).1.1
        = (⟨0, some "u", none, true⟩ : UserSession).id
    ∧ ((resolve stTwoSessions (some "u") none none).2).sessions = stTwoSessions.sessions :=
  ⟨by decide, by decide,
   (claim_resolution_idempotence_amended.2.1 stTwoSessions "u" none none
      ⟨0, some "u", none, true⟩ (by decide) (by decide)).1,
   (claim_resolution_idempotence_amended.2.1 stTwoSessions "u" none none
      ⟨0, some "u", none, true⟩ (by decide) (by decide)).2⟩

theorem claim_retry_policy_amended_witness :
    ((fun _ => (Attempt.exn "boom" : Attempt Nat)) 0 = .exn "boom")
    ∧ containsSubstr "boom" initErrorMsg = false
    ∧ retryLoop1 (fun _ => (Attempt.exn "boom" : Attempt Nat)) 0 3
        = ⟨.http 500 ("Failed to generate question after 3 attempts: " ++ "boom"),
           [500, 1000], 3⟩ :=
  ⟨rfl, rfl,
   claim_retry_policy_amended.2.1 (fun _ => (Attempt.exn "boom" : Attempt Nat))
     "boom" "boom" "boom" rfl rfl rfl rfl rfl rfl⟩

theorem autoFollowUpLoop_one (freq : QuestionRequest) (st : DBState) (env : GenEnv)
    (r2 : QuestionResponse) (st2 : DBState) (env2 : GenEnv)
    (h : generate_question st env freq = (.ok r2, st2, env2)) :
    autoFollowUpLoop freq true st env 1
      = (.ok [{ r2 with current_question := renderNumbered r2.questions }], st2, env2) := by
  unfold autoFollowUpLoop
  rw [if_pos rfl, h]
  by_cases hb2 : r2.next_batch_needed = true
  · simp only [hb2]
    rfl
  · simp only [Bool.not_eq_true] at hb2
    simp only [hb2]
    rfl

theorem buildAutomaticResponse_err (init : QuestionResponse)
    (rounds : List QuestionResponse) (auto : Bool) :
    buildAutomaticResponse init rounds auto = .error .validationError := rfl

theorem automaticBody_never_ok (st : DBState) (env : GenEnv) (req : AutomaticRequest) :
    ∃ e, (automaticBody st env req).1 = Except.error e := by
  rcases hb : automaticBody st env req with ⟨rb, stb, envb⟩
  unfold automaticBody at hb
  split at hb
  · simp only [Prod.mk.injEq] at hb
    exact ⟨_, hb.1.symm⟩
  · simp only [buildAutomaticResponse_err] at hb
    split at hb
    · split at hb
      · simp only [Prod.mk.injEq] at hb
        exact ⟨_, hb.1.symm⟩
      · simp only [Prod.mk.injEq] at hb
        exact ⟨_, hb.1.symm⟩
    · simp only [Prod.mk.injEq] at hb
      exact ⟨_, hb.1.symm⟩

/-- C3 (code bug): the automatic endpoint can never return the response the
claim describes — or any response at all.  The metadata dict passed to
`AutomaticQuestioningResponse` carries an integer `rounds_generated` and a
boolean `auto_follow_up` although the field is typed `Dict[str, str]`, so the
construction fails validation on every attempt.  On the claim's scenario
(`max_rounds = 2`, non-empty previous messages, auto-follow-up on, round-1
continuation signal) each attempt still runs the initial round and exactly
one follow-up round — two generation calls consuming both oracles and
persisting 3 + 3 question messages — before raising; the endpoint retries
three times with 0.5 s and 1 s backoffs and answers HTTP 500 naming the
attempt count and the validation error. -/
theorem claim_automatic_flow_code_bug :
    validateStrDict (autoMetadata 2 "" true 1) = none
    ∧ (∀ (st : DBState) (env : GenEnv) (req : AutomaticRequest),
        ∃ e, (automaticBody st env req).1 = Except.error e)
    ∧ (automaticBody DBState.empty [oracle3, oracle3] reqAuto).1
        = Except.error PyErr.validationError
    ∧ (automaticBody DBState.empty [oracle3, oracle3] reqAuto).2.2 = []
    ∧ ((automaticBody DBState.empty [oracle3, oracle3] reqAuto).2.1).messages.length = 6
    ∧ (automaticEndpoint reqAuto DBState.empty
          [oracle3, oracle3, oracle3, oracle3, oracle3, oracle3] 0 3).1
        = ⟨.http 500 ("Failed to generate automatic question flow after 3 attempts: "
              ++ PyErr.validationError.msg), [500, 1000], 3⟩ :=
  ⟨rfl, fun st env req => automaticBody_never_ok st env req, rfl, rfl, rfl, rfl⟩

end SeqQ
